import Mathlib

/-!
# Parking detection engine

A shallow embedding of `src/frontend/src/utils/parkingDetectionEngine.js`
(class `ParkingDetectionEngine`) and theorems about its region proposal
strategies, feature extraction, classification strategies, validation/ranking
stage, strategy dispatch, fallback result, error handling and thresholds.

## Modelling conventions

* JS numbers are exact rationals (`ℚ`); integers produced by `Math.round` and
  `Math.floor` are `ℤ`. The rounding of IEEE doubles is modelled where a claim
  depends on it: `toDouble`, `extractGeometricFeaturesDouble` and
  `scoreGeometricFeaturesDouble` follow the geometric features and their score
  operation by operation.
* `Math.random()` is an explicit stream of draws `rnd : ℕ → ℚ`. A method that
  calls `Math.random()` takes the number `k` of draws consumed so far and
  returns, next to its result, the number consumed afterwards. Draws are taken
  in the evaluation order of the source (object literals evaluate their
  properties top to bottom).
* The frame is a record with a flag `onPrototype` that tells a browser
  `ImageData`, whose `width`, `height` and `data` are prototype accessors, from
  a plain object; an object spread copies own properties only.
* JS objects are records. The spread `{...region, features: ...}` is modelled
  by the record types `Region`, `FeaturedRegion` and `ClassifiedSpot`, which
  share the fields of `RegionBase`.
* Arrays are lists; `Array.prototype.sort` is a stable sort.
* `Math.PI` is the exact value of the double; `Math.sqrt` is a parameter.
* `detectParkingSpots` is the pipeline over the engine's own stage methods,
  none of which raises; `detectParkingSpotsWith` is the same pipeline with its
  `try`/`catch` over stage methods that may raise.
-/

namespace ParkingDetection

/-! ## Numbers, strings and arrays -/

/-- The stream of `Math.random()` results of one run: `rnd n` is draw number `n`. -/
abbrev Draws := ℕ → ℚ

/-- `Math.round`: the nearest integer, a tie going to the larger one. -/
def mathRound (v : ℚ) : ℤ := ⌊v + 1 / 2⌋

/-- `Math.floor`. -/
def mathFloor (v : ℚ) : ℤ := ⌊v⌋

/-- `String.prototype.padStart` with a one-character filler. -/
def padStart (s : String) (targetLength : ℕ) (fill : Char) : String :=
  String.mk (List.replicate (targetLength - s.length) fill) ++ s

/-- `a || b` on an optional number: `undefined` and `0` are falsy. -/
def orDefault (a : Option ℚ) (b : ℚ) : ℚ :=
  match a with
  | some v => if v = 0 then b else v
  | none => b

/-- `Array.prototype.map` with a callback `(element, index)` that may call
`Math.random()`: elements are visited left to right and the draw counter is
threaded through the calls. -/
def arrayMap {α β : Type} (f : Draws → ℕ → α → ℕ → β × ℕ) (rnd : Draws) :
    ℕ → ℕ → List α → List β × ℕ
  | k, _, [] => ([], k)
  | k, index, a :: rest =>
    let r := f rnd k a index
    let rs := arrayMap f rnd r.2 (index + 1) rest
    (r.1 :: rs.1, rs.2)

/-- `Array.prototype.sort(compareFn)`: a stable sort that puts `a` before `b`
when `compareFn(a, b) < 0` and keeps the given order when it is `0`. -/
def arraySort {α : Type} (compareFn : α → α → ℚ) (l : List α) : List α :=
  l.insertionSort (fun a b => compareFn a b ≤ 0)

/-! ## Engine configuration (constructor, lines 8-30) -/

structure DetectionMethods where
  EDGE_DETECTION : String
  SELECTIVE_SEARCH : String
  CONNECTED_COMPONENTS : String
  DEEP_LEARNING : String
deriving DecidableEq, Repr

structure ClassificationMethods where
  SIFT_MODIFIED : String
  MLP_CLASSIFIER : String
  RESNET34 : String
  DCNN : String
deriving DecidableEq, Repr

structure DetectionThresholds where
  confidence : ℚ
  minSpotArea : ℚ
  maxSpotArea : ℚ
  aspectRatioMin : ℚ
  aspectRatioMax : ℚ
deriving DecidableEq, Repr

/-- The fields of a `ParkingDetectionEngine` instance. -/
structure Engine where
  detectionMethods : DetectionMethods
  classificationMethods : ClassificationMethods
  detectionThresholds : DetectionThresholds
deriving DecidableEq, Repr

/-- The engine built by `constructor()`. -/
def Engine.new : Engine where
  detectionMethods :=
    { EDGE_DETECTION := "edge_detection"
      SELECTIVE_SEARCH := "selective_search"
      CONNECTED_COMPONENTS := "connected_components"
      DEEP_LEARNING := "deep_learning" }
  classificationMethods :=
    { SIFT_MODIFIED := "sift_modified"
      MLP_CLASSIFIER := "mlp_classifier"
      RESNET34 := "resnet34"
      DCNN := "dcnn" }
  detectionThresholds :=
    { confidence := 0.75
      minSpotArea := 500
      maxSpotArea := 5000
      aspectRatioMin := 0.3
      aspectRatioMax := 3.0 }

/-! ## Data model -/

/-- The input frame (`imageData`); `processed` and `filters` are the
annotations `preprocessImage` adds. A frame is either a plain object, whose
`width`, `height` and `data` are own properties (the mock frame of
`ParkingDetectionVisualizer.js`), or a browser `ImageData` (the result of
`getImageData` in `CameraFeedDetector.js`), where the three are accessors of
the prototype: reading them gives the same values, but an object spread, which
copies own enumerable properties only, does not copy them. `onPrototype` tells
the two apart. -/
structure Frame where
  width : Option ℚ := none
  height : Option ℚ := none
  data : Option (List ℕ) := none
  processed : Option Bool := none
  filters : Option (List String) := none
  onPrototype : Bool := false
deriving DecidableEq, Repr

/-- The `edges` attribute of a grid region. -/
structure EdgeCounts where
  strong : ℤ
  weak : ℤ
deriving DecidableEq, Repr

/-- The `features` attribute a deep-learning region is emitted with. -/
structure DeepFeatures where
  activation : ℚ
  layer : String
  receptiveField : ℕ
deriving DecidableEq, Repr

/-- The fields of a candidate that every stage copies with `...region`; the
attributes that only some proposal strategy sets are optional. -/
structure RegionBase where
  id : String
  x : ℚ
  y : ℚ
  width : ℚ
  height : ℚ
  confidence : ℚ
  method : String
  edges : Option EdgeCounts := none
  diversityScore : Option ℚ := none
  pixelCount : Option ℤ := none
  label : Option ℕ := none
deriving DecidableEq, Repr

/-- A candidate as emitted by a region proposal strategy. -/
structure Region extends RegionBase where
  features : Option DeepFeatures := none
deriving DecidableEq, Repr

structure GeometricFeatures where
  area : ℚ
  aspectRatio : ℚ
  rectangularity : ℚ
  perimeter : ℚ
  compactness : ℚ
deriving DecidableEq, Repr

structure IntensityFeatures where
  mean : ℚ
  stdDev : ℚ
  histogram : List ℤ
deriving DecidableEq, Repr

structure TextureFeatures where
  lbp : ℚ
  hog : ℚ
  gabor : ℚ
deriving DecidableEq, Repr

structure EdgeFeatures where
  edgeDensity : ℚ
  cornerCount : ℤ
  gradientMagnitude : ℚ
deriving DecidableEq, Repr

structure FeatureBundle where
  geometric : GeometricFeatures
  intensity : IntensityFeatures
  texture : TextureFeatures
  edges : EdgeFeatures
deriving DecidableEq, Repr

/-- A candidate after `extractFeatures`: `{...region, features: {...}}`. -/
structure FeaturedRegion extends RegionBase where
  features : FeatureBundle
deriving DecidableEq, Repr

/-- The strategy-specific attributes of a `classification` object. -/
inductive ClassifierDetails where
  | sift (keypoints descriptors : ℤ)
  | mlp (activation solver : String) (layers : List ℕ) (iterations : ℤ)
  | resnet (networkDepth : ℕ) (pretrained fineTuned : Bool)
  | dcnn (architecture : String) (inputSize : List ℕ) (outputClasses : ℕ)
deriving DecidableEq, Repr

structure Classification where
  isParkingSpot : Bool
  confidence : ℚ
  method : String
  details : ClassifierDetails
deriving DecidableEq, Repr

/-- A candidate after classification: `{...feature, classification: {...}}`. -/
structure ClassifiedSpot extends FeaturedRegion where
  classification : Classification
deriving DecidableEq, Repr

structure SpotMetadata where
  area : ℤ
  aspectRatio : ℚ
  detectionScore : ℚ
deriving DecidableEq, Repr

/-- A spot of a detection result. Fallback spots carry no `metadata`. -/
structure ParkingSpot where
  id : String
  x : ℤ
  y : ℤ
  width : ℤ
  height : ℤ
  confidence : ℚ
  status : String
  type : String
  detectionMethod : String
  classificationMethod : String
  metadata : Option SpotMetadata
deriving DecidableEq, Repr

/-! ## Region proposal (lines 122-168) -/

/-- The object pushed for grid cell `(row, col)` by `edgeDetectionProposal`;
its seven draws are `rnd k`, ..., `rnd (k + 6)` in property order. -/
def edgeRegion (eng : Engine) (rnd : Draws) (k row col : ℕ) : Region :=
  let x : ℚ := (col * 90) + 50
  let y : ℚ := (row * 120) + 80
  { id := s!"region_{row}_{col}"
    x := x + (rnd k * 10 - 5)
    y := y + (rnd (k + 1) * 10 - 5)
    width := 70 + (rnd (k + 2) * 20 - 10)
    height := 90 + (rnd (k + 3) * 20 - 10)
    confidence := 0.6 + rnd (k + 4) * 0.3
    method := eng.detectionMethods.EDGE_DETECTION
    edges := some
      { strong := mathFloor (rnd (k + 5) * 20) + 10
        weak := mathFloor (rnd (k + 6) * 15) + 5 } }

/-- `edgeDetectionProposal(imageData)`: the two nested `for` loops over
`row < 4` and `col < 8`, each iteration pushing one region. -/
def edgeDetectionProposal (eng : Engine) (rnd : Draws) (k : ℕ) (imageData : Frame) :
    List Region × ℕ :=
  let _width := orDefault imageData.width 800
  let _height := orDefault imageData.height 600
  (List.range 4).foldl
    (fun acc row =>
      (List.range 8).foldl
        (fun acc col => (acc.1 ++ [edgeRegion eng rnd acc.2 row col], acc.2 + 7))
        acc)
    ([], k)

/-- `selectiveSearchProposal(imageData)`: the grid regions, re-tagged. -/
def selectiveSearchProposal (eng : Engine) (rnd : Draws) (k : ℕ) (imageData : Frame) :
    List Region × ℕ :=
  let baseRegions := edgeDetectionProposal eng rnd k imageData
  arrayMap
    (fun rnd k (region : Region) (_index : ℕ) =>
      ({ region with
          confidence := region.confidence * 0.9
          method := eng.detectionMethods.SELECTIVE_SEARCH
          diversityScore := some (rnd k) }, k + 1))
    rnd baseRegions.2 0 baseRegions.1

/-! ## Classification (lines 328-434) -/

/-- `scoreGeometricFeatures(geo)`. -/
def scoreGeometricFeatures (geo : GeometricFeatures) : ℚ :=
  let score : ℚ := 0
  let score := if geo.aspectRatio ≥ 0.7 ∧ geo.aspectRatio ≤ 1.4 then score + 0.3 else score
  let score := if geo.area ≥ 1000 ∧ geo.area ≤ 4000 then score + 0.3 else score
  let score := score + geo.rectangularity * 0.2
  let score := score + geo.compactness * 0.2
  score

/-- `scoreIntensityFeatures(intensity)`. -/
def scoreIntensityFeatures (intensity : IntensityFeatures) : ℚ :=
  let uniformity := 1 - (intensity.stdDev / 255)
  uniformity * 0.5 + 0.5

/-- `scoreTextureFeatures(texture)`. -/
def scoreTextureFeatures (texture : TextureFeatures) : ℚ :=
  (texture.lbp + texture.hog / 1000 + texture.gabor) / 3

/-- The callback of `siftClassification`; two draws. -/
def siftClassify (eng : Engine) (rnd : Draws) (k : ℕ) (feature : FeaturedRegion)
    (_index : ℕ) : ClassifiedSpot × ℕ :=
  ({ toFeaturedRegion := feature
     classification :=
      { isParkingSpot := decide (feature.confidence > 0.5)
        confidence := feature.confidence
        method := eng.classificationMethods.SIFT_MODIFIED
        details := .sift (mathFloor (rnd k * 50) + 10) (mathFloor (rnd (k + 1) * 100) + 50) } },
    k + 2)

/-- `siftClassification(features)`. -/
def siftClassification (eng : Engine) (rnd : Draws) (k : ℕ) (features : List FeaturedRegion) :
    List ClassifiedSpot × ℕ :=
  arrayMap (siftClassify eng) rnd k 0 features

/-- The callback of `mlpClassification`; one draw (`iterations`). -/
def mlpClassify (eng : Engine) (rnd : Draws) (k : ℕ) (feature : FeaturedRegion)
    (_index : ℕ) : ClassifiedSpot × ℕ :=
  let geometricScore := scoreGeometricFeatures feature.features.geometric
  let intensityScore := scoreIntensityFeatures feature.features.intensity
  let textureScore := scoreTextureFeatures feature.features.texture
  let combinedScore := (geometricScore * 0.4 + intensityScore * 0.3 + textureScore * 0.3)
  let confidence := max 0 (min 1 combinedScore)
  ({ toFeaturedRegion := feature
     classification :=
      { isParkingSpot := decide (confidence > eng.detectionThresholds.confidence)
        confidence := confidence
        method := eng.classificationMethods.MLP_CLASSIFIER
        details := .mlp "logistic" "SGD" [64, 32, 16, 1] (mathFloor (rnd k * 500) + 200) } },
    k + 1)

/-- `mlpClassification(features)`. -/
def mlpClassification (eng : Engine) (rnd : Draws) (k : ℕ) (features : List FeaturedRegion) :
    List ClassifiedSpot × ℕ :=
  arrayMap (mlpClassify eng) rnd k 0 features

/-- `resnetClassification(features)`; no draw. -/
def resnetClassification (eng : Engine) (features : List FeaturedRegion) : List ClassifiedSpot :=
  features.map fun feature =>
    { toFeaturedRegion := feature
      classification :=
        { isParkingSpot := decide (feature.confidence > 0.7)
          confidence := feature.confidence * 1.1
          method := eng.classificationMethods.RESNET34
          details := .resnet 34 true true } }

/-- `dcnClassification(features)`; no draw. -/
def dcnClassification (eng : Engine) (features : List FeaturedRegion) : List ClassifiedSpot :=
  features.map fun feature =>
    { toFeaturedRegion := feature
      classification :=
        { isParkingSpot := decide (feature.confidence > 0.65)
          confidence := feature.confidence * 1.05
          method := eng.classificationMethods.DCNN
          details := .dcnn "custom_dcnn" [224, 224, 3] 2 } }

/-! ## Validation and ranking (lines 439-486) -/

/-- `determineSpotStatus(spot)`; one draw. -/
def determineSpotStatus (rnd : Draws) (k : ℕ) (_spot : ClassifiedSpot) : String × ℕ :=
  let random := rnd k
  if random > 0.7 then ("occupied", k + 1)
  else if random > 0.9 then ("reserved", k + 1)
  else ("available", k + 1)

/-- `determineSpotType(spot)`; one draw. -/
def determineSpotType (rnd : Draws) (k : ℕ) (_spot : ClassifiedSpot) : String × ℕ :=
  let random := rnd k
  if random > 0.95 then ("handicap", k + 1)
  else if random > 0.9 then ("ev_charging", k + 1)
  else if random > 0.8 then ("shaded", k + 1)
  else ("regular", k + 1)

/-- The second `.filter` callback of `validateAndFilter` (lines 442-450).
For `spot.height = 0` the JS quotient is `Infinity`, `-Infinity` or `NaN`, and
`aspectRatio >= min && aspectRatio <= max` is false for every finite pair of
bounds; the guard `spot.height ≠ 0` states that case, which exact division in
`ℚ` (where `a / 0 = 0`) would not. -/
def geometricGate (eng : Engine) (spot : ClassifiedSpot) : Bool :=
  let area := spot.width * spot.height
  let aspectRatio := spot.width / spot.height
  decide (area ≥ eng.detectionThresholds.minSpotArea) &&
  decide (area ≤ eng.detectionThresholds.maxSpotArea) &&
  decide (spot.height ≠ 0) &&
  decide (aspectRatio ≥ eng.detectionThresholds.aspectRatioMin) &&
  decide (aspectRatio ≤ eng.detectionThresholds.aspectRatioMax)

/-- The `.map` callback of `validateAndFilter` (lines 451-467); two draws,
first the status, then the type. It only ever runs on spots that passed
`geometricGate`, whose `height` is not zero. -/
def emitSpot (rnd : Draws) (k : ℕ) (spot : ClassifiedSpot) (index : ℕ) : ParkingSpot × ℕ :=
  let status := determineSpotStatus rnd k spot
  let type := determineSpotType rnd status.2 spot
  ({ id := "P" ++ padStart (toString (index + 1)) 3 '0'
     x := mathRound spot.x
     y := mathRound spot.y
     width := mathRound spot.width
     height := mathRound spot.height
     confidence := (mathRound (spot.classification.confidence * 100) : ℚ) / 100
     status := status.1
     type := type.1
     detectionMethod := spot.method
     classificationMethod := spot.classification.method
     metadata := some
      { area := mathRound (spot.width * spot.height)
        aspectRatio := (mathRound ((spot.width / spot.height) * 100) : ℚ) / 100
        detectionScore := spot.confidence } },
    type.2)

/-- `validateAndFilter(classifiedSpots)`: filter, filter, map, sort. -/
def validateAndFilter (eng : Engine) (rnd : Draws) (k : ℕ)
    (classifiedSpots : List ClassifiedSpot) : List ParkingSpot × ℕ :=
  let kept :=
    (classifiedSpots.filter fun spot => spot.classification.isParkingSpot).filter
      (geometricGate eng)
  let emitted := arrayMap emitSpot rnd k 0 kept
  (arraySort (fun a b => b.confidence - a.confidence) emitted.1, emitted.2)

/-- The fields of an emitted spot that depend on the candidate alone, not on
its index or on the draws: position, size, confidence, methods, metadata. -/
def spotPayload (s : ParkingSpot) : ℤ × ℤ × ℤ × ℤ × ℚ × String × String × Option SpotMetadata :=
  (s.x, s.y, s.width, s.height, s.confidence, s.detectionMethod, s.classificationMethod,
    s.metadata)

/-! ## Further region proposal strategies (lines 100-117, 173-246) -/

/-- The object pushed for component `i` by `connectedComponentsProposal`; its
six draws are `rnd k`, ..., `rnd (k + 5)` in property order. -/
def componentRegion (eng : Engine) (rnd : Draws) (k i : ℕ) : Region :=
  { id := s!"component_{i}"
    x := rnd k * 700 + 50
    y := rnd (k + 1) * 500 + 50
    width := rnd (k + 2) * 100 + 40
    height := rnd (k + 3) * 120 + 60
    confidence := rnd (k + 4) * 0.8 + 0.2
    method := eng.detectionMethods.CONNECTED_COMPONENTS
    pixelCount := some (mathFloor (rnd (k + 5) * 2000) + 500)
    label := some (i + 1) }

/-- `connectedComponentsProposal(imageData)`: one draw for the number of
components, then the `for` loop over `i < components`. -/
def connectedComponentsProposal (eng : Engine) (rnd : Draws) (k : ℕ) (_imageData : Frame) :
    List Region × ℕ :=
  let components := mathFloor (rnd k * 15) + 20
  (List.range components.toNat).foldl
    (fun acc i => (acc.1 ++ [componentRegion eng rnd acc.2 i], acc.2 + 6))
    ([], k + 1)

/-- An anchor box of `generateAnchors`. -/
structure Anchor where
  x : ℚ
  y : ℚ
  width : ℚ
  height : ℚ
deriving DecidableEq, Repr

/-- `generateAnchors()`: the four nested loops over rows, columns, scales and
ratios, each innermost iteration pushing one anchor. `Math.sqrt` is taken as
the parameter `sqrt`; the program applies it to 0.5, 1 and 2 only. -/
def generateAnchors (sqrt : ℚ → ℚ) : List Anchor :=
  let scales : List ℚ := [0.8, 1.0, 1.2]
  let ratios : List ℚ := [0.5, 1.0, 2.0]
  (List.range 4).flatMap fun row =>
    (List.range 8).flatMap fun col =>
      scales.flatMap fun scale =>
        ratios.map fun ratio =>
          { x := (col * 90) + 50
            y := (row * 120) + 80
            width := 80 * scale * sqrt ratio
            height := 100 * scale / sqrt ratio }

/-- The object pushed by `deepLearningProposal` for a surviving anchor; its
two draws are `rnd k` (confidence) and `rnd (k + 1)` (activation). -/
def anchorRegion (eng : Engine) (rnd : Draws) (k : ℕ) (anchor : Anchor) (index : ℕ) : Region :=
  { x := anchor.x
    y := anchor.y
    width := anchor.width
    height := anchor.height
    id := s!"dl_region_{index}"
    confidence := rnd k * 0.4 + 0.6
    method := eng.detectionMethods.DEEP_LEARNING
    features := some { activation := rnd (k + 1), layer := "conv5", receptiveField := 160 } }

/-- `deepLearningProposal(imageData)`: `anchors.forEach((anchor, index) => ...)`
with one draw for the survival test and two more for a surviving anchor. -/
def deepLearningProposal (sqrt : ℚ → ℚ) (eng : Engine) (rnd : Draws) (k : ℕ)
    (_imageData : Frame) : List Region × ℕ :=
  let anchors := generateAnchors sqrt
  anchors.enum.foldl
    (fun acc entry =>
      if rnd acc.2 > 0.3 then
        (acc.1 ++ [anchorRegion eng rnd (acc.2 + 1) entry.2 entry.1], acc.2 + 3)
      else (acc.1, acc.2 + 1))
    ([], k)

/-- `proposeRegions(imageData, method)`: the `switch` on the method name. -/
def proposeRegions (sqrt : ℚ → ℚ) (eng : Engine) (rnd : Draws) (k : ℕ) (imageData : Frame)
    (method : String) : List Region × ℕ :=
  if method = eng.detectionMethods.EDGE_DETECTION then
    edgeDetectionProposal eng rnd k imageData
  else if method = eng.detectionMethods.SELECTIVE_SEARCH then
    selectiveSearchProposal eng rnd k imageData
  else if method = eng.detectionMethods.CONNECTED_COMPONENTS then
    connectedComponentsProposal eng rnd k imageData
  else if method = eng.detectionMethods.DEEP_LEARNING then
    deepLearningProposal sqrt eng rnd k imageData
  else
    edgeDetectionProposal eng rnd k imageData

/-! ## Feature extraction (lines 251-301) -/

/-- `Math.PI`: the double nearest to the circle constant, as an exact fraction
(numerator over `2 ^ 48`). -/
def mathPI : ℚ := 884279719003555 / 281474976710656

/-- `extractGeometricFeatures(region)` in exact arithmetic. Division is exact
division in `ℚ`; for a region of height 0 or of area 0 the JS quotients are
`Infinity` or `NaN`, so the values are those of the source where
`width * height ≠ 0`, up to the rounding of doubles, which
`extractGeometricFeaturesDouble` follows. -/
def extractGeometricFeatures (region : Region) : GeometricFeatures :=
  let area := region.width * region.height
  let aspectRatio := region.width / region.height
  let rectangularity := area / (region.width * region.height)
  { area := area
    aspectRatio := aspectRatio
    rectangularity := rectangularity
    perimeter := 2 * (region.width + region.height)
    compactness := (4 * mathPI * area) / (region.width + region.height) ^ 2 }

/-- `extractIntensityFeatures(region)`; 18 draws, 16 of them for the histogram. -/
def extractIntensityFeatures (rnd : Draws) (k : ℕ) (_region : Region) : IntensityFeatures × ℕ :=
  ({ mean := rnd k * 255
     stdDev := rnd (k + 1) * 50 + 20
     histogram := (List.range 16).map fun j => mathFloor (rnd (k + 2 + j) * 100) },
    k + 18)

/-- `extractTextureFeatures(region)`; three draws. -/
def extractTextureFeatures (rnd : Draws) (k : ℕ) (_region : Region) : TextureFeatures × ℕ :=
  ({ lbp := rnd k, hog := rnd (k + 1) * 1000, gabor := rnd (k + 2) }, k + 3)

/-- `extractEdgeFeatures(region)`; three draws. -/
def extractEdgeFeatures (rnd : Draws) (k : ℕ) (_region : Region) : EdgeFeatures × ℕ :=
  ({ edgeDensity := rnd k
     cornerCount := mathFloor (rnd (k + 1) * 10)
     gradientMagnitude := rnd (k + 2) * 255 },
    k + 3)

/-- The callback of `extractFeatures`: `{...region, features: {...}}`. The new
`features` takes the place of the `features` the region may already have. -/
def extractFeature (rnd : Draws) (k : ℕ) (region : Region) (_index : ℕ) : FeaturedRegion × ℕ :=
  let geometric := extractGeometricFeatures region
  let intensity := extractIntensityFeatures rnd k region
  let texture := extractTextureFeatures rnd intensity.2 region
  let edges := extractEdgeFeatures rnd texture.2 region
  ({ toRegionBase := region.toRegionBase
     features :=
      { geometric := geometric, intensity := intensity.1, texture := texture.1,
        edges := edges.1 } },
    edges.2)

/-- `extractFeatures(imageData, regions)`. -/
def extractFeatures (rnd : Draws) (k : ℕ) (_imageData : Frame) (regions : List Region) :
    List FeaturedRegion × ℕ :=
  arrayMap extractFeature rnd k 0 regions

/-! ## Strategy dispatch and pipeline (lines 35-95, 306-323) -/

/-- `classifySpots(features, method)`: the `switch` on the method name. -/
def classifySpots (eng : Engine) (rnd : Draws) (k : ℕ) (features : List FeaturedRegion)
    (method : String) : List ClassifiedSpot × ℕ :=
  if method = eng.classificationMethods.SIFT_MODIFIED then
    siftClassification eng rnd k features
  else if method = eng.classificationMethods.MLP_CLASSIFIER then
    mlpClassification eng rnd k features
  else if method = eng.classificationMethods.RESNET34 then
    (resnetClassification eng features, k)
  else if method = eng.classificationMethods.DCNN then
    (dcnClassification eng features, k)
  else
    mlpClassification eng rnd k features

/-- `preprocessImage(imageData)`: `{...imageData, processed: true, filters:
[...]}`. The spread copies the own properties of the frame; for a browser
`ImageData` these do not include `width`, `height` and `data`. -/
def preprocessImage (imageData : Frame) : Frame :=
  if imageData.onPrototype then
    { width := none
      height := none
      data := none
      processed := some true
      filters := some ["gaussian_blur", "contrast_enhancement", "noise_reduction"]
      onPrototype := false }
  else
    { imageData with
      processed := some true
      filters := some ["gaussian_blur", "contrast_enhancement", "noise_reduction"] }

/-- The `options` argument of `detectParkingSpots`; an absent key takes its
default in the destructuring. -/
structure DetectionOptions where
  regionMethod : Option String := none
  classificationMethod : Option String := none
  enablePreprocessing : Option Bool := none
deriving DecidableEq, Repr

structure ResultMetadata where
  detectionMethod : String
  classificationMethod : String
  totalCandidates : ℕ
  detectedSpots : ℕ
  processingTime : Option ℤ
  fallbackUsed : Option Bool
deriving DecidableEq, Repr

structure DetectionResult where
  spots : List ParkingSpot
  metadata : ResultMetadata
deriving DecidableEq, Repr

/-- The `try` block of `detectParkingSpots(imageData, options)`, with
`Date.now()` given as `now`. Every stage method of this embedding returns for
every frame and every method name, so the `catch` branch is not reached on
these inputs and is left out. -/
def detectParkingSpots (sqrt : ℚ → ℚ) (eng : Engine) (rnd : Draws) (k : ℕ) (now : ℤ)
    (imageData : Frame) (options : DetectionOptions) : DetectionResult × ℕ :=
  let regionMethod := options.regionMethod.getD eng.detectionMethods.EDGE_DETECTION
  let classificationMethod :=
    options.classificationMethod.getD eng.classificationMethods.MLP_CLASSIFIER
  let enablePreprocessing := options.enablePreprocessing.getD true
  let processedImage := if enablePreprocessing then preprocessImage imageData else imageData
  let candidateRegions := proposeRegions sqrt eng rnd k processedImage regionMethod
  let features := extractFeatures rnd candidateRegions.2 processedImage candidateRegions.1
  let classifiedSpots := classifySpots eng rnd features.2 features.1 classificationMethod
  let validatedSpots := validateAndFilter eng rnd classifiedSpots.2 classifiedSpots.1
  ({ spots := validatedSpots.1
     metadata :=
      { detectionMethod := regionMethod
        classificationMethod := classificationMethod
        totalCandidates := candidateRegions.1.length
        detectedSpots := validatedSpots.1.length
        processingTime := some now
        fallbackUsed := none } },
    validatedSpots.2)

/-! ## `mlpClassification` on feature bundles with missing fields (lines 344-400)

The records above have every field. To follow the source on a malformed
bundle, the part of a bundle that `mlpClassification` reads is modelled once
more with optional groups and optional numbers. A number that may be `NaN` is
an `Option ℚ` with `none` for `NaN`; a missing field (`undefined`) read in
arithmetic is `NaN`, and a comparison with it is false. Reading a field of a
missing group raises a `TypeError`. -/

/-- `a + b` where an operand may be `NaN`. -/
def nanAdd (a b : Option ℚ) : Option ℚ := a.bind fun x => b.map fun y => x + y

/-- `a - b` where an operand may be `NaN`. -/
def nanSub (a b : Option ℚ) : Option ℚ := a.bind fun x => b.map fun y => x - y

/-- `a * b` where an operand may be `NaN`. -/
def nanMul (a b : Option ℚ) : Option ℚ := a.bind fun x => b.map fun y => x * y

/-- `a / b` where an operand may be `NaN`; the divisors of the program are the
constants 255, 1000 and 3. -/
def nanDiv (a b : Option ℚ) : Option ℚ := a.bind fun x => b.map fun y => x / y

/-- `Math.min(a, b)`: `NaN` when an argument is. -/
def nanMin (a b : Option ℚ) : Option ℚ := a.bind fun x => b.map fun y => min x y

/-- `Math.max(a, b)`: `NaN` when an argument is. -/
def nanMax (a b : Option ℚ) : Option ℚ := a.bind fun x => b.map fun y => max x y

/-- `a >= b`: false when an operand is `NaN`. -/
def nanGe (a b : Option ℚ) : Bool :=
  match a, b with
  | some x, some y => decide (x ≥ y)
  | _, _ => false

/-- `a <= b`: false when an operand is `NaN`. -/
def nanLe (a b : Option ℚ) : Bool :=
  match a, b with
  | some x, some y => decide (x ≤ y)
  | _, _ => false

/-- `a > b`: false when an operand is `NaN`. -/
def nanGt (a b : Option ℚ) : Bool :=
  match a, b with
  | some x, some y => decide (x > y)
  | _, _ => false

structure RawGeometricFeatures where
  area : Option ℚ
  aspectRatio : Option ℚ
  rectangularity : Option ℚ
  compactness : Option ℚ
deriving DecidableEq, Repr

structure RawIntensityFeatures where
  stdDev : Option ℚ
deriving DecidableEq, Repr

structure RawTextureFeatures where
  lbp : Option ℚ
  hog : Option ℚ
  gabor : Option ℚ
deriving DecidableEq, Repr

/-- The groups of `feature.features` that `mlpClassification` reads, each
possibly missing. -/
structure RawFeatureBundle where
  geometric : Option RawGeometricFeatures
  intensity : Option RawIntensityFeatures
  texture : Option RawTextureFeatures
deriving DecidableEq, Repr

/-- The `isParkingSpot` and `confidence` of the classification object. -/
structure RawClassification where
  isParkingSpot : Bool
  confidence : Option ℚ
deriving DecidableEq, Repr

/-- `scoreGeometricFeatures(geo)` on a possibly missing group. -/
def scoreGeometricFeaturesRaw (geo : Option RawGeometricFeatures) : Except String (Option ℚ) :=
  match geo with
  | none => .error "TypeError"
  | some geo =>
    let score : Option ℚ := some 0
    let score :=
      if nanGe geo.aspectRatio (some 0.7) && nanLe geo.aspectRatio (some 1.4) then
        nanAdd score (some 0.3)
      else score
    let score :=
      if nanGe geo.area (some 1000) && nanLe geo.area (some 4000) then nanAdd score (some 0.3)
      else score
    let score := nanAdd score (nanMul geo.rectangularity (some 0.2))
    let score := nanAdd score (nanMul geo.compactness (some 0.2))
    .ok score

/-- `scoreIntensityFeatures(intensity)` on a possibly missing group. -/
def scoreIntensityFeaturesRaw (intensity : Option RawIntensityFeatures) :
    Except String (Option ℚ) :=
  match intensity with
  | none => .error "TypeError"
  | some intensity =>
    let uniformity := nanSub (some 1) (nanDiv intensity.stdDev (some 255))
    .ok (nanAdd (nanMul uniformity (some 0.5)) (some 0.5))

/-- `scoreTextureFeatures(texture)` on a possibly missing group. -/
def scoreTextureFeaturesRaw (texture : Option RawTextureFeatures) : Except String (Option ℚ) :=
  match texture with
  | none => .error "TypeError"
  | some texture =>
    .ok (nanDiv (nanAdd (nanAdd texture.lbp (nanDiv texture.hog (some 1000))) texture.gabor)
      (some 3))

/-- The callback of `mlpClassification` on a possibly malformed bundle: the
three scores in source order, the first `TypeError` ending the call. -/
def mlpClassifyRaw (eng : Engine) (features : RawFeatureBundle) :
    Except String RawClassification :=
  match scoreGeometricFeaturesRaw features.geometric with
  | .error e => .error e
  | .ok geometricScore =>
    match scoreIntensityFeaturesRaw features.intensity with
    | .error e => .error e
    | .ok intensityScore =>
      match scoreTextureFeaturesRaw features.texture with
      | .error e => .error e
      | .ok textureScore =>
        let combinedScore :=
          nanAdd
            (nanAdd (nanMul geometricScore (some 0.4)) (nanMul intensityScore (some 0.3)))
            (nanMul textureScore (some 0.3))
        let confidence := nanMax (some 0) (nanMin (some 1) combinedScore)
        .ok
          { isParkingSpot := nanGt confidence (some eng.detectionThresholds.confidence)
            confidence := confidence }

/-- A complete bundle seen as a possibly malformed one. -/
def FeatureBundle.toRaw (b : FeatureBundle) : RawFeatureBundle where
  geometric := some
    { area := some b.geometric.area
      aspectRatio := some b.geometric.aspectRatio
      rectangularity := some b.geometric.rectangularity
      compactness := some b.geometric.compactness }
  intensity := some { stdDev := some b.intensity.stdDev }
  texture := some
    { lbp := some b.texture.lbp, hog := some b.texture.hog, gabor := some b.texture.gabor }

/-- The reading "each missing field replaced by 0" of a malformed bundle: a
missing number becomes 0 and a missing group a group of zeros. -/
def fillMissingWithZero (b : RawFeatureBundle) : RawFeatureBundle where
  geometric := some
    (match b.geometric with
    | some geo =>
      { area := some (geo.area.getD 0)
        aspectRatio := some (geo.aspectRatio.getD 0)
        rectangularity := some (geo.rectangularity.getD 0)
        compactness := some (geo.compactness.getD 0) }
    | none =>
      { area := some 0, aspectRatio := some 0, rectangularity := some 0, compactness := some 0 })
  intensity := some
    (match b.intensity with
    | some intensity => { stdDev := some (intensity.stdDev.getD 0) }
    | none => { stdDev := some 0 })
  texture := some
    (match b.texture with
    | some texture =>
      { lbp := some (texture.lbp.getD 0)
        hog := some (texture.hog.getD 0)
        gabor := some (texture.gabor.getD 0) }
    | none => { lbp := some 0, hog := some 0, gabor := some 0 })

/-! ## Fallback result, error handling and thresholds (lines 35-83, 491-535) -/

/-- The object pushed for index `i` by `getFallbackDetection`; one draw, for
the status. -/
def fallbackSpot (rnd : Draws) (k i : ℕ) : ParkingSpot :=
  { id := "P" ++ padStart (toString (i + 1)) 3 '0'
    x := ((i % 8 : ℕ) : ℤ) * 90 + 50
    y := mathFloor ((i : ℚ) / 8) * 120 + 80
    width := 75
    height := 95
    confidence := 0.8
    status := if rnd k > 0.6 then "occupied" else "available"
    type := "regular"
    detectionMethod := "fallback"
    classificationMethod := "rule_based"
    metadata := none }

/-- `getFallbackDetection()`: the `for` loop over `i < 24`. -/
def getFallbackDetection (rnd : Draws) (k : ℕ) : DetectionResult × ℕ :=
  let fallbackSpots :=
    (List.range 24).foldl
      (fun acc i => (acc.1 ++ [fallbackSpot rnd acc.2 i], acc.2 + 1))
      ([], k)
  ({ spots := fallbackSpots.1
     metadata :=
      { detectionMethod := "fallback"
        classificationMethod := "rule_based"
        totalCandidates := 24
        detectedSpots := 24
        processingTime := none
        fallbackUsed := some true } },
    fallbackSpots.2)

/-- What a call of a stage method does: it returns a value or it raises. In
both cases `k` is the number of draws consumed by then. -/
inductive Outcome (α : Type) where
  | returned (value : α) (k : ℕ)
  | raised (error : String) (k : ℕ)

/-- The five stage methods that `detectParkingSpots` calls on `this`, as
methods that may raise. -/
structure StageMethods where
  preprocessImage : ℕ → Frame → Outcome Frame
  proposeRegions : Draws → ℕ → Frame → String → Outcome (List Region)
  extractFeatures : Draws → ℕ → Frame → List Region → Outcome (List FeaturedRegion)
  classifySpots : Draws → ℕ → List FeaturedRegion → String → Outcome (List ClassifiedSpot)
  validateAndFilter : Draws → ℕ → List ClassifiedSpot → Outcome (List ParkingSpot)

/-- The stage methods of the engine itself; none of them raises. -/
def engineStages (sqrt : ℚ → ℚ) (eng : Engine) : StageMethods where
  preprocessImage := fun k imageData => .returned (preprocessImage imageData) k
  proposeRegions := fun rnd k imageData method =>
    .returned (proposeRegions sqrt eng rnd k imageData method).1
      (proposeRegions sqrt eng rnd k imageData method).2
  extractFeatures := fun rnd k imageData regions =>
    .returned (extractFeatures rnd k imageData regions).1
      (extractFeatures rnd k imageData regions).2
  classifySpots := fun rnd k features method =>
    .returned (classifySpots eng rnd k features method).1
      (classifySpots eng rnd k features method).2
  validateAndFilter := fun rnd k classifiedSpots =>
    .returned (validateAndFilter eng rnd k classifiedSpots).1
      (validateAndFilter eng rnd k classifiedSpots).2

/-- The `try` block of `detectParkingSpots` (lines 42-77) over stage methods
that may raise: the first stage to raise ends the block. -/
def detectionAttempt (stages : StageMethods) (eng : Engine) (rnd : Draws) (k : ℕ) (now : ℤ)
    (imageData : Frame) (options : DetectionOptions) : Outcome DetectionResult :=
  let regionMethod := options.regionMethod.getD eng.detectionMethods.EDGE_DETECTION
  let classificationMethod :=
    options.classificationMethod.getD eng.classificationMethods.MLP_CLASSIFIER
  let enablePreprocessing := options.enablePreprocessing.getD true
  match (if enablePreprocessing then stages.preprocessImage k imageData
      else .returned imageData k) with
  | .raised e j => .raised e j
  | .returned processedImage k0 =>
    match stages.proposeRegions rnd k0 processedImage regionMethod with
    | .raised e j => .raised e j
    | .returned candidateRegions k1 =>
      match stages.extractFeatures rnd k1 processedImage candidateRegions with
      | .raised e j => .raised e j
      | .returned features k2 =>
        match stages.classifySpots rnd k2 features classificationMethod with
        | .raised e j => .raised e j
        | .returned classifiedSpots k3 =>
          match stages.validateAndFilter rnd k3 classifiedSpots with
          | .raised e j => .raised e j
          | .returned validatedSpots k4 =>
            .returned
              { spots := validatedSpots
                metadata :=
                  { detectionMethod := regionMethod
                    classificationMethod := classificationMethod
                    totalCandidates := candidateRegions.length
                    detectedSpots := validatedSpots.length
                    processingTime := some now
                    fallbackUsed := none } }
              k4

/-- `detectParkingSpots(imageData, options)` with its `try`/`catch` (lines
35-83) over stage methods that may raise: an error raised in the `try` block
is caught and the fallback result returned. -/
def detectParkingSpotsWith (stages : StageMethods) (eng : Engine) (rnd : Draws) (k : ℕ)
    (now : ℤ) (imageData : Frame) (options : DetectionOptions) : DetectionResult × ℕ :=
  match detectionAttempt stages eng rnd k now imageData options with
  | .returned result j => (result, j)
  | .raised _ j => getFallbackDetection rnd j

/-- The argument of `updateThresholds`: an object that names some of the five
thresholds. -/
structure ThresholdOverrides where
  confidence : Option ℚ := none
  minSpotArea : Option ℚ := none
  maxSpotArea : Option ℚ := none
  aspectRatioMin : Option ℚ := none
  aspectRatioMax : Option ℚ := none
deriving DecidableEq, Repr

/-- `updateThresholds(newThresholds)`:
`{ ...this.detectionThresholds, ...newThresholds }`. -/
def updateThresholds (eng : Engine) (newThresholds : ThresholdOverrides) : Engine :=
  { eng with
    detectionThresholds :=
      { confidence := newThresholds.confidence.getD eng.detectionThresholds.confidence
        minSpotArea := newThresholds.minSpotArea.getD eng.detectionThresholds.minSpotArea
        maxSpotArea := newThresholds.maxSpotArea.getD eng.detectionThresholds.maxSpotArea
        aspectRatioMin :=
          newThresholds.aspectRatioMin.getD eng.detectionThresholds.aspectRatioMin
        aspectRatioMax :=
          newThresholds.aspectRatioMax.getD eng.detectionThresholds.aspectRatioMax } }

/-- The number written in decimal digits, read left to right. -/
def decodeDigits (digits : List Char) : ℕ :=
  digits.foldl (fun acc c => 10 * acc + (c.toNat - 48)) 0

/-- The number of a spot id: the digits after its first character. -/
def idNumber (id : String) : ℕ := decodeDigits (id.data.drop 1)

/-! ## Double arithmetic for the geometric features and their score

Elsewhere numbers are exact rationals. Where a claim turns on the last bit of
a result, the operations are modelled once more with the rounding of IEEE
doubles: every arithmetic operation and every decimal literal is rounded to
the nearest double, a tie going to the even one. -/

/-- Round to the nearest integer, a tie going to the even one. -/
def roundHalfEven (v : ℚ) : ℤ :=
  let f := ⌊v⌋
  if v - f < 1 / 2 then f
  else if v - f > 1 / 2 then f + 1
  else if f % 2 = 0 then f
  else f + 1

/-- The double nearest to `v`: 53 significant bits, round to nearest, ties to
even. The exponent is not bounded, so this is the IEEE result for magnitudes
in the normal range (from `2 ^ (-1022)` to below `2 ^ 1024`) and for 0. -/
def toDouble (v : ℚ) : ℚ :=
  if v = 0 then 0
  else (roundHalfEven (v / 2 ^ (Int.log 2 |v| - 52)) : ℚ) * 2 ^ (Int.log 2 |v| - 52)

/-- `extractGeometricFeatures(region)` (lines 263-275) in double arithmetic,
for a region whose width and height are doubles. `Math.pow(x, 2)` is the
rounded square `x * x`. -/
def extractGeometricFeaturesDouble (region : Region) : GeometricFeatures :=
  let area := toDouble (region.width * region.height)
  let aspectRatio := toDouble (region.width / region.height)
  let rectangularity := toDouble (area / toDouble (region.width * region.height))
  { area := area
    aspectRatio := aspectRatio
    rectangularity := rectangularity
    perimeter := toDouble (2 * toDouble (region.width + region.height))
    compactness :=
      toDouble (toDouble (toDouble (4 * mathPI) * area) /
        toDouble (toDouble (region.width + region.height) ^ 2)) }

/-- `scoreGeometricFeatures(geo)` (lines 369-389) in double arithmetic. -/
def scoreGeometricFeaturesDouble (geo : GeometricFeatures) : ℚ :=
  let score : ℚ := 0
  let score :=
    if geo.aspectRatio ≥ toDouble 0.7 ∧ geo.aspectRatio ≤ toDouble 1.4 then
      toDouble (score + toDouble 0.3)
    else score
  let score :=
    if geo.area ≥ 1000 ∧ geo.area ≤ 4000 then toDouble (score + toDouble 0.3) else score
  let score := toDouble (score + toDouble (geo.rectangularity * toDouble 0.2))
  let score := toDouble (score + toDouble (geo.compactness * toDouble 0.2))
  score

/-! ## Sample inputs -/

/-- A feature bundle of the kind `extractFeatures` attaches to a 60 x 80
region; its compactness is given to the nearest integer. -/
def sampleBundle : FeatureBundle where
  geometric := { area := 4800, aspectRatio := 3 / 4, rectangularity := 1, perimeter := 280, compactness := 3 }
  intensity := { mean := 128, stdDev := 20, histogram := List.replicate 16 0 }
  texture := { lbp := 0, hog := 0, gabor := 0 }
  edges := { edgeDensity := 0, cornerCount := 0, gradientMagnitude := 0 }

/-- The 60 x 80 region of grid cell `(row, col)` (position draws 1/2, size
draws 0, edge draws 0) with region confidence `c`, after feature extraction. -/
def sampleFeature (row col : ℕ) (c : ℚ) : FeaturedRegion where
  id := s!"region_{row}_{col}"
  x := (col * 90) + 50
  y := (row * 120) + 80
  width := 60
  height := 80
  confidence := c
  method := "edge_detection"
  edges := some { strong := 10, weak := 5 }
  features := sampleBundle

/-- The `sift_modified` classification of `sampleFeature row col c` (keypoint
draws `0`). -/
def sampleSpot (row col : ℕ) (c : ℚ) : ClassifiedSpot :=
  (siftClassify Engine.new (fun _ => 0) 0 (sampleFeature row col c) 0).1

/-- A 60 x 80 region of the kind `connectedComponentsProposal` emits (size
draws 1/5 and 1/6, confidence draw 19/20, so confidence 0.96), after feature
extraction. -/
def sampleComponent : FeaturedRegion where
  id := "component_0"
  x := 400
  y := 300
  width := 60
  height := 80
  confidence := 0.96
  method := "connected_components"
  pixelCount := some 1500
  label := some 1
  features := sampleBundle

/-- A frame of zero area. -/
def zeroFrame : Frame := { width := some 0, height := some 0 }

/-- `Math.sqrt` on the three arguments the program applies it to, to 16
significant digits. -/
def sampleSqrt (v : ℚ) : ℚ :=
  if v = 0.5 then 0.7071067811865476
  else if v = 2 then 1.4142135623730951
  else if v = 1 then 1
  else 0

/-- A 60 x 60 region of the kind `connectedComponentsProposal` emits (width
draw 1/5, the other draws 0). -/
def sampleSquare : Region where
  id := "component_0"
  x := 50
  y := 50
  width := 60
  height := 60
  confidence := 0.2
  method := "connected_components"
  pixelCount := some 500
  label := some 1

/-- The reference bundle with its `gabor` number missing. -/
def sampleBundleNoGabor : RawFeatureBundle where
  geometric := some
    { area := some 2000, aspectRatio := some 1, rectangularity := some 1, compactness := some 1 }
  intensity := some { stdDev := some 0 }
  texture := some { lbp := some 1, hog := some 0, gabor := none }

/-- The reference bundle with its `geometric` group missing. -/
def sampleBundleNoGeometric : RawFeatureBundle where
  geometric := none
  intensity := some { stdDev := some 0 }
  texture := some { lbp := some 1, hog := some 0, gabor := some 1 }

/-- A browser `ImageData` of 640 x 480 pixels (buffer left out), as obtained
from `getImageData`. -/
def cameraFrame : Frame :=
  { width := some 640, height := some 480, data := some [], onPrototype := true }

/-- The engine's stage methods with a `proposeRegions` that raises. -/
def failingStages : StageMethods :=
  { engineStages sampleSqrt Engine.new with
    proposeRegions := fun _ k _ _ => .raised "StageFailure" k }

/-- A region of 60.01 x 60.01, the sides being the double nearest to 60.01
(`8445656676203233 / 2 ^ 47`). Both sides lie in the ranges from which
`connectedComponentsProposal` draws widths (40 to 140) and heights (60 to
180). -/
def sampleSquareDouble : Region where
  id := "component_0"
  x := 50
  y := 50
  width := 8445656676203233 / 140737488355328
  height := 8445656676203233 / 140737488355328
  confidence := 0.2
  method := "connected_components"
  pixelCount := some 500
  label := some 1

/-- A 50 x 50 region. -/
def sampleSquareFifty : Region where
  id := "region"
  x := 50
  y := 50
  width := 50
  height := 50
  confidence := 0.6
  method := "edge_detection"

/-! # Theorems -/

/-! ## Lemmas on the array helpers -/

theorem arrayMap_length {α β : Type} (f : Draws → ℕ → α → ℕ → β × ℕ) (rnd : Draws) :
    ∀ (l : List α) (k index : ℕ), (arrayMap f rnd k index l).1.length = l.length
  | [], _, _ => rfl
  | _ :: rest, k, index => by
    simp only [arrayMap, List.length_cons, arrayMap_length f rnd rest]

/-- A projection of the callback results that does not depend on the draws or
the index is a plain `map` of the input. -/
theorem arrayMap_map_eq {α β γ : Type} (f : Draws → ℕ → α → ℕ → β × ℕ) (rnd : Draws)
    (g : β → γ) (h : α → γ) (hf : ∀ k a index, g (f rnd k a index).1 = h a) :
    ∀ (l : List α) (k index : ℕ), (arrayMap f rnd k index l).1.map g = l.map h
  | [], _, _ => rfl
  | a :: rest, k, index => by
    simp only [arrayMap, List.map_cons, hf, arrayMap_map_eq f rnd g h hf rest]

/-- Every result of `arrayMap` is the callback applied to some input element. -/
theorem arrayMap_mem {α β : Type} (f : Draws → ℕ → α → ℕ → β × ℕ) (rnd : Draws) :
    ∀ (l : List α) (k index : ℕ) (b : β), b ∈ (arrayMap f rnd k index l).1 →
      ∃ a ∈ l, ∃ k1 i1, b = (f rnd k1 a i1).1
  | [], _, _, b, hb => by simp [arrayMap] at hb
  | a :: rest, k, index, b, hb => by
    simp only [arrayMap, List.mem_cons] at hb
    rcases hb with hb | hb
    · exact ⟨a, List.mem_cons_self _ _, k, index, hb⟩
    · obtain ⟨a1, ha1, k1, i1, h1⟩ := arrayMap_mem f rnd rest _ _ b hb
      exact ⟨a1, List.mem_cons_of_mem _ ha1, k1, i1, h1⟩

theorem arraySort_perm {α : Type} (compareFn : α → α → ℚ) (l : List α) :
    (arraySort compareFn l).Perm l :=
  List.perm_insertionSort _ l

/-- The ids written by the `.map` callback follow the index. -/
theorem arrayMap_emitSpot_ids (rnd : Draws) :
    ∀ (l : List ClassifiedSpot) (k index : ℕ),
      (arrayMap emitSpot rnd k index l).1.map (fun s => s.id) =
        (List.range l.length).map fun j => "P" ++ padStart (toString (index + j + 1)) 3 '0'
  | [], _, _ => rfl
  | a :: rest, k, index => by
    simp only [arrayMap, List.map_cons, List.length_cons, List.range_succ_eq_map,
      arrayMap_emitSpot_ids rnd rest, List.map_map]
    refine congrArg₂ _ rfl (List.map_congr_left fun j _ => ?_)
    simp only [Function.comp, emitSpot]
    rw [show index + 1 + j = index + (j + 1) by omega]

/-- The comparator `(a, b) => b.confidence - a.confidence` yields a list whose
confidences never increase. -/
theorem arraySort_confidence_sorted (l : List ParkingSpot) :
    List.Sorted (fun a b : ParkingSpot => a.confidence ≥ b.confidence)
      (arraySort (fun a b => b.confidence - a.confidence) l) := by
  haveI : IsTotal ParkingSpot (fun a b : ParkingSpot => b.confidence - a.confidence ≤ 0) :=
    ⟨fun a b => by
      rcases le_total b.confidence a.confidence with h | h
      · exact Or.inl (sub_nonpos.mpr h)
      · exact Or.inr (sub_nonpos.mpr h)⟩
  haveI : IsTrans ParkingSpot (fun a b : ParkingSpot => b.confidence - a.confidence ≤ 0) :=
    ⟨fun _ _ _ hab hbc => sub_nonpos.mpr (le_trans (sub_nonpos.mp hbc) (sub_nonpos.mp hab))⟩
  have hs := List.sorted_insertionSort
    (fun a b : ParkingSpot => b.confidence - a.confidence ≤ 0) l
  exact List.Pairwise.imp (fun h => sub_nonpos.mp h) hs

theorem le_mathRound {z : ℤ} {v : ℚ} (h : (z : ℚ) ≤ v) : z ≤ mathRound v := by
  unfold mathRound
  rw [Int.le_floor]
  linarith

theorem mathRound_le {z : ℤ} {v : ℚ} (h : v ≤ (z : ℚ)) : mathRound v ≤ z := by
  unfold mathRound
  have hlt : ⌊v + 1 / 2⌋ < z + 1 := by
    rw [Int.floor_lt]
    push_cast
    linarith
  omega

theorem spotPayload_emitSpot (rnd : Draws) (k : ℕ) (c : ClassifiedSpot) (index : ℕ) :
    spotPayload (emitSpot rnd k c index).1 = spotPayload (emitSpot (fun _ => 0) 0 c 0).1 :=
  rfl

/-- The two filters of `validateAndFilter` as one. -/
theorem validateAndFilter_kept (eng : Engine) (cs : List ClassifiedSpot) :
    (cs.filter fun spot => spot.classification.isParkingSpot).filter (geometricGate eng) =
      cs.filter fun c => c.classification.isParkingSpot && geometricGate eng c := by
  rw [List.filter_filter]
  congr 1
  funext c
  exact Bool.and_comm _ _

/-! ## Claims on `validateAndFilter` -/

/-- C1 (counterexample): two gate-passing candidates with classification
confidences 0.7 and 0.8, in this order, come back as P002 (0.8) then P001
(0.7): the first returned spot does not have id P001. -/
theorem validateAndFilter_first_id_P002 :
    (validateAndFilter Engine.new (fun _ => 0) 0
        [sampleSpot 0 0 0.7, sampleSpot 0 1 0.8]).1.map
      (fun s => (s.id, s.confidence)) = [("P002", 0.8), ("P001", 0.7)] := by
  norm_num [validateAndFilter, arrayMap, arraySort, emitSpot, geometricGate, sampleSpot,
    sampleFeature, siftClassify, Engine.new, determineSpotStatus, determineSpotType, mathRound,
    List.insertionSort, List.orderedInsert]
  decide

/-- C1 (amended): ids are assigned in input order, before ranking. With
`emitted` the list of spots built from the surviving candidates in input
order, the spot at 0-based position `i` of `emitted` has id "P" followed by
`i + 1` zero-padded to 3 digits, and the returned list is `emitted` stably
sorted by descending confidence: a rearrangement of `emitted` in which the
confidences never increase and spots of equal confidence keep their order. -/
theorem validateAndFilter_ids_follow_input_order (eng : Engine) (rnd : Draws) (k : ℕ)
    (cs : List ClassifiedSpot) :
    ∃ emitted : List ParkingSpot,
      (validateAndFilter eng rnd k cs).1.Perm emitted ∧
      List.Pairwise (fun a b : ParkingSpot => a.confidence ≥ b.confidence)
        (validateAndFilter eng rnd k cs).1 ∧
      (∀ a b : ParkingSpot, a.confidence = b.confidence →
        List.Sublist [a, b] emitted →
        List.Sublist [a, b] (validateAndFilter eng rnd k cs).1) ∧
      emitted.map (fun s => s.id) =
        (List.range emitted.length).map
          (fun i => "P" ++ padStart (toString (i + 1)) 3 '0') ∧
      emitted.map spotPayload =
        (cs.filter fun c => c.classification.isParkingSpot && geometricGate eng c).map
          (fun c => spotPayload (emitSpot (fun _ => 0) 0 c 0).1) := by
  have hsort : (validateAndFilter eng rnd k cs).1 =
      arraySort (fun a b => b.confidence - a.confidence)
        (arrayMap emitSpot rnd k 0
          (cs.filter fun c => c.classification.isParkingSpot && geometricGate eng c)).1 := by
    unfold validateAndFilter
    rw [validateAndFilter_kept]
  refine ⟨(arrayMap emitSpot rnd k 0
    (cs.filter fun c => c.classification.isParkingSpot && geometricGate eng c)).1,
    ?_, ?_, ?_, ?_, ?_⟩
  · rw [hsort]
    exact arraySort_perm _ _
  · rw [hsort]
    exact arraySort_confidence_sorted _
  · intro a b hab hsub
    rw [hsort]
    have hrel : b.confidence - a.confidence ≤ 0 := by rw [hab, sub_self]
    exact List.pair_sublist_insertionSort hrel hsub
  · rw [arrayMap_emitSpot_ids, arrayMap_length]
    simp only [Nat.zero_add]
  · exact arrayMap_map_eq emitSpot rnd spotPayload _
      (fun k a index => spotPayload_emitSpot rnd k a index) _ _ _

/-- C2: in the list returned by `validateAndFilter` every spot has a
confidence at least that of the spot that follows it. -/
theorem validateAndFilter_confidence_descending (eng : Engine) (rnd : Draws) (k : ℕ)
    (cs : List ClassifiedSpot) :
    List.Chain' (fun a b : ParkingSpot => a.confidence ≥ b.confidence)
      (validateAndFilter eng rnd k cs).1 := by
  unfold validateAndFilter
  exact List.Pairwise.chain' (arraySort_confidence_sorted _)

/-- C3: `validateAndFilter` keeps exactly the candidates classified as parking
spots whose area and aspect ratio lie within the thresholds. The number of
returned spots is the number of such candidates, every returned spot is built
from such a candidate, and the payloads of the returned spots are, up to
order, those of these candidates (none dropped, duplicated or invented). The
aspect ratio of a candidate of height 0 is not a number within any bounds. -/
theorem validateAndFilter_keeps_exactly_gated (eng : Engine) (rnd : Draws) (k : ℕ)
    (cs : List ClassifiedSpot) :
    (validateAndFilter eng rnd k cs).1.length =
        cs.countP (fun c => decide (c.classification.isParkingSpot = true ∧
          eng.detectionThresholds.minSpotArea ≤ c.width * c.height ∧
          c.width * c.height ≤ eng.detectionThresholds.maxSpotArea ∧
          c.height ≠ 0 ∧
          eng.detectionThresholds.aspectRatioMin ≤ c.width / c.height ∧
          c.width / c.height ≤ eng.detectionThresholds.aspectRatioMax)) ∧
      (∀ s ∈ (validateAndFilter eng rnd k cs).1, ∃ c ∈ cs,
        (c.classification.isParkingSpot = true ∧
          eng.detectionThresholds.minSpotArea ≤ c.width * c.height ∧
          c.width * c.height ≤ eng.detectionThresholds.maxSpotArea ∧
          c.height ≠ 0 ∧
          eng.detectionThresholds.aspectRatioMin ≤ c.width / c.height ∧
          c.width / c.height ≤ eng.detectionThresholds.aspectRatioMax) ∧
        ∃ k1 index, s = (emitSpot rnd k1 c index).1) ∧
      ((validateAndFilter eng rnd k cs).1.map spotPayload).Perm
        ((cs.filter (fun c => decide (c.classification.isParkingSpot = true ∧
          eng.detectionThresholds.minSpotArea ≤ c.width * c.height ∧
          c.width * c.height ≤ eng.detectionThresholds.maxSpotArea ∧
          c.height ≠ 0 ∧
          eng.detectionThresholds.aspectRatioMin ≤ c.width / c.height ∧
          c.width / c.height ≤ eng.detectionThresholds.aspectRatioMax))).map
          (fun c => spotPayload (emitSpot (fun _ => 0) 0 c 0).1)) := by
  have hpred : (fun c : ClassifiedSpot => decide (c.classification.isParkingSpot = true ∧
          eng.detectionThresholds.minSpotArea ≤ c.width * c.height ∧
          c.width * c.height ≤ eng.detectionThresholds.maxSpotArea ∧
          c.height ≠ 0 ∧
          eng.detectionThresholds.aspectRatioMin ≤ c.width / c.height ∧
          c.width / c.height ≤ eng.detectionThresholds.aspectRatioMax)) =
      fun c => c.classification.isParkingSpot && geometricGate eng c := by
    funext c
    simp only [geometricGate, ge_iff_le, Bool.decide_and, Bool.decide_eq_true, Bool.and_assoc]
  rw [hpred]
  have hperm : (validateAndFilter eng rnd k cs).1.Perm (arrayMap emitSpot rnd k 0
      (cs.filter fun c => c.classification.isParkingSpot && geometricGate eng c)).1 := by
    unfold validateAndFilter
    rw [validateAndFilter_kept]
    exact arraySort_perm _ _
  refine ⟨?_, ?_, ?_⟩
  · rw [hperm.length_eq, arrayMap_length, List.countP_eq_length_filter]
  · intro s hs
    obtain ⟨c, hc, k1, i1, h1⟩ := arrayMap_mem emitSpot rnd _ _ _ s (hperm.mem_iff.mp hs)
    rw [List.mem_filter] at hc
    refine ⟨c, hc.1, ?_, k1, i1, h1⟩
    have h2 := hc.2
    simp only [geometricGate, ge_iff_le, Bool.and_eq_true, decide_eq_true_eq] at h2
    tauto
  · refine (hperm.map spotPayload).trans ?_
    rw [arrayMap_map_eq emitSpot rnd spotPayload _
      (fun k a index => spotPayload_emitSpot rnd k a index)]

/-- C4: under the default thresholds every returned spot has `metadata.area`
in [500, 5000] and `metadata.aspectRatio` in [0.3, 3.0]; rounding the
metadata does not leave the gate. -/
theorem validateAndFilter_metadata_in_gate (rnd : Draws) (k : ℕ) (cs : List ClassifiedSpot)
    (s : ParkingSpot) (hs : s ∈ (validateAndFilter Engine.new rnd k cs).1) :
    ∃ m : SpotMetadata, s.metadata = some m ∧
      500 ≤ m.area ∧ m.area ≤ 5000 ∧ 0.3 ≤ m.aspectRatio ∧ m.aspectRatio ≤ 3.0 := by
  have hperm : (validateAndFilter Engine.new rnd k cs).1.Perm (arrayMap emitSpot rnd k 0
      (cs.filter fun c => c.classification.isParkingSpot && geometricGate Engine.new c)).1 := by
    unfold validateAndFilter
    rw [validateAndFilter_kept]
    exact arraySort_perm _ _
  obtain ⟨c, hc, k1, i1, h1⟩ := arrayMap_mem emitSpot rnd _ _ _ s (hperm.mem_iff.mp hs)
  rw [List.mem_filter] at hc
  have h2 := hc.2
  simp only [geometricGate, Engine.new, ge_iff_le, Bool.and_eq_true, decide_eq_true_eq] at h2
  obtain ⟨_, ⟨⟨⟨hamin, hamax⟩, _⟩, hrmin⟩, hrmax⟩ := h2
  subst h1
  refine ⟨_, rfl, ?_, ?_, ?_, ?_⟩
  · exact le_mathRound (by push_cast; exact hamin)
  · exact mathRound_le (by push_cast; exact hamax)
  · have h30 : (30 : ℤ) ≤ mathRound (c.width / c.height * 100) :=
      le_mathRound (by push_cast; linarith)
    have h30q : (30 : ℚ) ≤ (mathRound (c.width / c.height * 100) : ℚ) := by exact_mod_cast h30
    show (0.3 : ℚ) ≤ (mathRound (c.width / c.height * 100) : ℚ) / 100
    linarith
  · have h300 : mathRound (c.width / c.height * 100) ≤ (300 : ℤ) :=
      mathRound_le (by push_cast; linarith)
    have h300q : (mathRound (c.width / c.height * 100) : ℚ) ≤ (300 : ℚ) := by exact_mod_cast h300
    show (mathRound (c.width / c.height * 100) : ℚ) / 100 ≤ (3.0 : ℚ)
    linarith

/-- C4 (witness): the one spot returned for a 60 x 80 candidate of confidence
0.7 has metadata within the gate. -/
theorem validateAndFilter_metadata_in_gate_witness :
    (emitSpot (fun _ => 0) 0 (sampleSpot 0 0 0.7) 0).1 ∈
        (validateAndFilter Engine.new (fun _ => 0) 0 [sampleSpot 0 0 0.7]).1 ∧
      ∃ m : SpotMetadata,
        (emitSpot (fun _ => 0) 0 (sampleSpot 0 0 0.7) 0).1.metadata = some m ∧
        500 ≤ m.area ∧ m.area ≤ 5000 ∧ 0.3 ≤ m.aspectRatio ∧ m.aspectRatio ≤ 3.0 :=
  ⟨by
      norm_num [validateAndFilter, arrayMap, arraySort, geometricGate, sampleSpot, sampleFeature,
        siftClassify, Engine.new],
    validateAndFilter_metadata_in_gate (fun _ => 0) 0 [sampleSpot 0 0 0.7] _ (by
      norm_num [validateAndFilter, arrayMap, arraySort, geometricGate, sampleSpot, sampleFeature,
        siftClassify, Engine.new])⟩

/-! ## Claims on the classification strategies -/

/-- C5 (failing input): a connected-components region of confidence 0.96 is
classified by `resnetClassification` with confidence 1.056 and by
`dcnClassification` with confidence 1.008, and `validateAndFilter` emits the
spots with confidence 1.06 and 1.01: all four exceed 1. -/
theorem resnet_dcnn_confidence_above_one :
    (resnetClassification Engine.new [sampleComponent]).map
        (fun s => s.classification.confidence) = [1.056] ∧
      (validateAndFilter Engine.new (fun _ => 0) 0
        (resnetClassification Engine.new [sampleComponent])).1.map
        (fun s => s.confidence) = [1.06] ∧
      (dcnClassification Engine.new [sampleComponent]).map
        (fun s => s.classification.confidence) = [1.008] ∧
      (validateAndFilter Engine.new (fun _ => 0) 0
        (dcnClassification Engine.new [sampleComponent])).1.map
        (fun s => s.confidence) = [1.01] := by
  refine ⟨?_, ?_, ?_, ?_⟩ <;>
    norm_num [validateAndFilter, arrayMap, arraySort, emitSpot, geometricGate,
      resnetClassification, dcnClassification, sampleComponent, Engine.new, determineSpotStatus,
      determineSpotType, mathRound]

/-- C6: for every feature bundle `mlpClassification` keeps the candidate and
sets `classification.confidence` to `0.4 * geometricScore + 0.3 *
intensityScore + 0.3 * textureScore` clamped to [0, 1], with the three scores
as stated, and `isParkingSpot` to `confidence > 0.75` under the default
thresholds. -/
theorem mlpClassification_scoring_law (rnd : Draws) (k : ℕ) (features : List FeaturedRegion) :
    (mlpClassification Engine.new rnd k features).1.map
        (fun s => (s.toFeaturedRegion, s.classification.confidence,
          s.classification.isParkingSpot)) =
      features.map (fun f =>
        let geo := f.features.geometric
        let geometricScore : ℚ :=
          (if 0.7 ≤ geo.aspectRatio ∧ geo.aspectRatio ≤ 1.4 then 0.3 else 0) +
          (if 1000 ≤ geo.area ∧ geo.area ≤ 4000 then 0.3 else 0) +
          0.2 * geo.rectangularity + 0.2 * geo.compactness
        let intensityScore : ℚ := 0.5 * (1 - f.features.intensity.stdDev / 255) + 0.5
        let textureScore : ℚ :=
          (f.features.texture.lbp + f.features.texture.hog / 1000 + f.features.texture.gabor) / 3
        let confidence : ℚ :=
          max 0 (min 1 (0.4 * geometricScore + 0.3 * intensityScore + 0.3 * textureScore))
        (f, confidence, decide (confidence > 0.75))) := by
  unfold mlpClassification
  refine arrayMap_map_eq _ rnd _ _ (fun k f index => ?_) features k 0
  have hg : scoreGeometricFeatures f.features.geometric =
      (if 0.7 ≤ f.features.geometric.aspectRatio ∧ f.features.geometric.aspectRatio ≤ 1.4
        then 0.3 else 0) +
      (if 1000 ≤ f.features.geometric.area ∧ f.features.geometric.area ≤ 4000 then 0.3 else 0) +
      0.2 * f.features.geometric.rectangularity + 0.2 * f.features.geometric.compactness := by
    unfold scoreGeometricFeatures
    split_ifs <;> ring
  have hi : scoreIntensityFeatures f.features.intensity =
      0.5 * (1 - f.features.intensity.stdDev / 255) + 0.5 := by
    unfold scoreIntensityFeatures
    ring
  simp only [mlpClassify, Engine.new, hg, hi, scoreTextureFeatures]
  have hc : ∀ g i t : ℚ, g * 0.4 + i * 0.3 + t * 0.3 = 0.4 * g + 0.3 * i + 0.3 * t :=
    fun g i t => by ring
  rw [hc]

/-- C7: for the feature bundle with aspectRatio 1, area 2000, rectangularity
1, compactness 1, stdDev 0, lbp 1, hog 0, gabor 1 (the other fields of the
candidate being arbitrary) the mlp strategy computes geometricScore 1,
intensityScore 1, textureScore 2/3, confidence 0.9 and isParkingSpot true. -/
theorem mlpClassify_reference_bundle (base : RegionBase) (perimeter mean : ℚ)
    (histogram : List ℤ) (edges : EdgeFeatures) (rnd : Draws) (k index : ℕ) :
    let bundle : FeatureBundle :=
      { geometric :=
          { area := 2000, aspectRatio := 1.0, rectangularity := 1.0, perimeter := perimeter,
            compactness := 1.0 }
        intensity := { mean := mean, stdDev := 0, histogram := histogram }
        texture := { lbp := 1, hog := 0, gabor := 1 }
        edges := edges }
    let result :=
      (mlpClassify Engine.new rnd k { toRegionBase := base, features := bundle } index).1
    scoreGeometricFeatures bundle.geometric = 1 ∧
      scoreIntensityFeatures bundle.intensity = 1 ∧
      scoreTextureFeatures bundle.texture = 2 / 3 ∧
      result.classification.confidence = 0.9 ∧
      result.classification.isParkingSpot = true := by
  intro bundle result
  have hg : scoreGeometricFeatures bundle.geometric = 1 := by
    norm_num [bundle, scoreGeometricFeatures]
  have hi : scoreIntensityFeatures bundle.intensity = 1 := by
    norm_num [bundle, scoreIntensityFeatures]
  have ht : scoreTextureFeatures bundle.texture = 2 / 3 := by
    norm_num [bundle, scoreTextureFeatures]
  refine ⟨hg, hi, ht, ?_, ?_⟩
  · show max 0 (min 1 (scoreGeometricFeatures bundle.geometric * 0.4 +
      scoreIntensityFeatures bundle.intensity * 0.3 +
      scoreTextureFeatures bundle.texture * 0.3)) = (0.9 : ℚ)
    rw [hg, hi, ht]
    norm_num
  · show decide (max 0 (min 1 (scoreGeometricFeatures bundle.geometric * 0.4 +
      scoreIntensityFeatures bundle.intensity * 0.3 +
      scoreTextureFeatures bundle.texture * 0.3)) > Engine.new.detectionThresholds.confidence)
      = true
    rw [hg, hi, ht]
    norm_num [Engine.new]

/-- C8 (failing input): for region confidence 0.96 `resnetClassification`
reports 1.056, whereas `min(1.1 * 0.96, 1)` is 1. -/
theorem resnetClassification_not_capped :
    (resnetClassification Engine.new [sampleComponent]).map
        (fun s => (s.classification.confidence, min (1.1 * s.confidence) 1)) =
      [(1.056, 1)] := by
  norm_num [resnetClassification, sampleComponent]

/-- C9 (counterexample): for region confidence 0.63 `dcnClassification`
reports 0.6615, above 0.65, and decides false; for region confidence 0.65
`resnetClassification` reports 0.715, above 0.7, and decides false. -/
theorem dcn_resnet_decision_not_on_reported :
    (dcnClassification Engine.new [sampleFeature 0 0 0.63]).map
        (fun s => (s.classification.confidence, decide (s.classification.confidence > 0.65),
          s.classification.isParkingSpot)) = [(0.6615, true, false)] ∧
      (resnetClassification Engine.new [sampleFeature 0 0 0.65]).map
        (fun s => (s.classification.confidence, decide (s.classification.confidence > 0.7),
          s.classification.isParkingSpot)) = [(0.715, true, false)] := by
  constructor <;> norm_num [dcnClassification, resnetClassification, sampleFeature]

/-- C9 (amended): for every candidate with region confidence `c`,
`dcnClassification` keeps the candidate, reports `1.05 * c` and decides true
exactly when `c` itself exceeds 0.65; `resnetClassification` keeps the
candidate and decides true exactly when `c` itself exceeds 0.7. -/
theorem dcn_resnet_decide_on_region_confidence (eng : Engine) (features : List FeaturedRegion) :
    (dcnClassification eng features).map
        (fun s => (s.toFeaturedRegion, s.classification.confidence,
          s.classification.isParkingSpot)) =
        features.map (fun f => (f, 1.05 * f.confidence, decide (f.confidence > 0.65))) ∧
      (resnetClassification eng features).map
        (fun s => (s.toFeaturedRegion, s.classification.isParkingSpot)) =
        features.map (fun f => (f, decide (f.confidence > 0.7))) := by
  constructor
  · simp only [dcnClassification, List.map_map]
    refine List.map_congr_left fun f _ => ?_
    simp only [Function.comp, mul_comm]
  · simp only [resnetClassification, List.map_map]
    rfl

/-! ## Claims on region proposal -/

/-- C10: for every frame and every sequence of draws `edgeDetectionProposal`
returns exactly 32 regions whose ids are those of the cells of the 4 x 8 grid
in row-major order, and `selectiveSearchProposal` returns 32 regions too. -/
theorem edgeDetectionProposal_grid (eng : Engine) (rnd : Draws) (k : ℕ) (imageData : Frame) :
    (edgeDetectionProposal eng rnd k imageData).1.length = 32 ∧
      (edgeDetectionProposal eng rnd k imageData).1.map (fun r => r.id) =
        (List.range 4).flatMap (fun row =>
          (List.range 8).map (fun col => "region_" ++ toString row ++ "_" ++ toString col)) ∧
      (selectiveSearchProposal eng rnd k imageData).1.length = 32 := by
  have hlen : (edgeDetectionProposal eng rnd k imageData).1.length = 32 := by
    simp [edgeDetectionProposal, List.range_succ]
  refine ⟨hlen, ?_, ?_⟩
  · simp [edgeDetectionProposal, List.range_succ, edgeRegion]
    decide
  · unfold selectiveSearchProposal
    rw [arrayMap_length, hlen]

/-! ## Lemmas on the proposal loops -/

/-- The grid regions, cell by cell, with the draws each cell takes. -/
theorem edgeDetectionProposal_cells (eng : Engine) (rnd : Draws) (k : ℕ) (imageData : Frame) :
    (edgeDetectionProposal eng rnd k imageData).1 =
      (List.range 4).flatMap fun row =>
        (List.range 8).map fun col => edgeRegion eng rnd (k + 7 * (8 * row + col)) row col := by
  simp [edgeDetectionProposal, List.range_succ]

/-- With draws in [0, 1) a grid region stays within its jitter bounds. -/
theorem edgeRegion_bounds (eng : Engine) (rnd : Draws) (hrnd : ∀ n, 0 ≤ rnd n ∧ rnd n < 1)
    (k row col : ℕ) :
    |(edgeRegion eng rnd k row col).x - (90 * col + 50)| ≤ 5 ∧
      |(edgeRegion eng rnd k row col).y - (120 * row + 80)| ≤ 5 ∧
      |(edgeRegion eng rnd k row col).width - 70| ≤ 10 ∧
      |(edgeRegion eng rnd k row col).height - 90| ≤ 10 ∧
      0.6 ≤ (edgeRegion eng rnd k row col).confidence ∧
      (edgeRegion eng rnd k row col).confidence ≤ 0.9 ∧
      0 < (edgeRegion eng rnd k row col).width ∧
      0 < (edgeRegion eng rnd k row col).height := by
  have h0 := hrnd k
  have h1 := hrnd (k + 1)
  have h2 := hrnd (k + 2)
  have h3 := hrnd (k + 3)
  have h4 := hrnd (k + 4)
  simp only [edgeRegion, abs_le]
  refine ⟨⟨?_, ?_⟩, ⟨?_, ?_⟩, ⟨?_, ?_⟩, ⟨?_, ?_⟩, ?_, ?_, ?_, ?_⟩ <;> norm_num <;> linarith

/-- A loop that pushes one element per iteration and takes `c` draws for it. -/
theorem foldl_push_length {α β : Type} (g : ℕ → β → α) (c : ℕ) :
    ∀ (l : List β) (init : List α) (k : ℕ),
      (l.foldl (fun acc i => (acc.1 ++ [g acc.2 i], acc.2 + c)) (init, k)).1.length =
        init.length + l.length
  | [], init, k => by simp
  | b :: rest, init, k => by
    rw [List.foldl_cons, foldl_push_length g c rest]
    simp only [List.length_append, List.length_cons, List.length_nil]
    omega

theorem foldl_push_map {α β γ : Type} (g : ℕ → β → α) (c : ℕ) (proj : α → γ) (h : β → γ)
    (hg : ∀ k i, proj (g k i) = h i) :
    ∀ (l : List β) (init : List α) (k : ℕ),
      (l.foldl (fun acc i => (acc.1 ++ [g acc.2 i], acc.2 + c)) (init, k)).1.map proj =
        init.map proj ++ l.map h
  | [], init, k => by simp
  | b :: rest, init, k => by
    simp only [List.foldl_cons, foldl_push_map g c proj h hg rest, List.map_append,
      List.map_cons, List.map_nil, hg, List.append_assoc, List.singleton_append]

/-- The loop of `deepLearningProposal` pushes at most one region per anchor. -/
theorem foldl_survivors_length_le (eng : Engine) (rnd : Draws) :
    ∀ (l : List (ℕ × Anchor)) (init : List Region) (k : ℕ),
      (l.foldl
        (fun acc entry =>
          if rnd acc.2 > 0.3 then
            (acc.1 ++ [anchorRegion eng rnd (acc.2 + 1) entry.2 entry.1], acc.2 + 3)
          else (acc.1, acc.2 + 1))
        (init, k)).1.length ≤ init.length + l.length
  | [], init, k => by simp
  | b :: rest, init, k => by
    simp only [List.foldl_cons, List.length_cons]
    split_ifs
    · refine (foldl_survivors_length_le eng rnd rest _ _).trans ?_
      simp only [List.length_append, List.length_cons, List.length_nil]
      omega
    · refine (foldl_survivors_length_le eng rnd rest _ _).trans ?_
      omega

/-- When every draw exceeds 0.3 every anchor survives. -/
theorem foldl_survivors_length_all (eng : Engine) (rnd : Draws) (hrnd : ∀ n, rnd n > 0.3) :
    ∀ (l : List (ℕ × Anchor)) (init : List Region) (k : ℕ),
      (l.foldl
        (fun acc entry =>
          if rnd acc.2 > 0.3 then
            (acc.1 ++ [anchorRegion eng rnd (acc.2 + 1) entry.2 entry.1], acc.2 + 3)
          else (acc.1, acc.2 + 1))
        (init, k)).1.length = init.length + l.length
  | [], init, k => by simp
  | b :: rest, init, k => by
    simp only [List.foldl_cons]
    rw [if_pos (hrnd k), foldl_survivors_length_all eng rnd hrnd rest]
    simp only [List.length_append, List.length_cons, List.length_nil]
    omega

set_option maxRecDepth 8192 in
theorem generateAnchors_length (sqrt : ℚ → ℚ) : (generateAnchors sqrt).length = 288 := by
  simp [generateAnchors, List.range_succ]

/-- C11: with draws in [0, 1) the region emitted for grid cell `(row, col)`,
the one at position `8 * row + col`, has x within 5 of `90 * col + 50`, y
within 5 of `120 * row + 80`, width within 10 of 70, height within 10 of 90
and confidence in [0.6, 0.9]; its width and height are positive. -/
theorem edgeDetectionProposal_cell_bounds (eng : Engine) (rnd : Draws)
    (hrnd : ∀ n, 0 ≤ rnd n ∧ rnd n < 1) (k : ℕ) (imageData : Frame) (row col : ℕ)
    (hrow : row < 4) (hcol : col < 8) :
    ∃ region : Region,
      (edgeDetectionProposal eng rnd k imageData).1[8 * row + col]? = some region ∧
      region.id = "region_" ++ toString row ++ "_" ++ toString col ∧
      |region.x - (90 * col + 50)| ≤ 5 ∧
      |region.y - (120 * row + 80)| ≤ 5 ∧
      |region.width - 70| ≤ 10 ∧
      |region.height - 90| ≤ 10 ∧
      0.6 ≤ region.confidence ∧
      region.confidence ≤ 0.9 ∧
      0 < region.width ∧
      0 < region.height := by
  refine ⟨edgeRegion eng rnd (k + 7 * (8 * row + col)) row col, ?_, ?_,
    edgeRegion_bounds eng rnd hrnd _ row col⟩
  · rw [edgeDetectionProposal_cells]
    interval_cases row <;> interval_cases col <;> rfl
  · show toString "region_" ++ toString row ++ toString "_" ++ toString col ++ toString "" = _
    simp only [instToStringString, String.append_empty]

/-- C11 (witness): the cell (1, 2) with every draw 1/2. -/
theorem edgeDetectionProposal_cell_bounds_witness :
    (∀ n : ℕ, 0 ≤ (fun _ => 1 / 2 : Draws) n ∧ (fun _ => 1 / 2 : Draws) n < 1) ∧
      1 < 4 ∧ 2 < 8 ∧
      ∃ region : Region,
        (edgeDetectionProposal Engine.new (fun _ => 1 / 2) 0 zeroFrame).1[8 * 1 + 2]? =
          some region ∧
        region.id = "region_" ++ toString 1 ++ "_" ++ toString 2 ∧
        |region.x - (90 * (2 : ℕ) + 50)| ≤ 5 ∧
        |region.y - (120 * (1 : ℕ) + 80)| ≤ 5 ∧
        |region.width - 70| ≤ 10 ∧
        |region.height - 90| ≤ 10 ∧
        0.6 ≤ region.confidence ∧
        region.confidence ≤ 0.9 ∧
        0 < region.width ∧
        0 < region.height :=
  ⟨fun _ => by norm_num, by decide, by decide,
    edgeDetectionProposal_cell_bounds Engine.new (fun _ => 1 / 2) (fun _ => by norm_num) 0
      zeroFrame 1 2 (by decide) (by decide)⟩

/-- C12: with draws in [0, 1) `connectedComponentsProposal` returns between 20
and 34 regions, and region `i` (0-based) has id `component_i` and label
`i + 1`. -/
theorem connectedComponentsProposal_count_ids (eng : Engine) (rnd : Draws)
    (hrnd : ∀ n, 0 ≤ rnd n ∧ rnd n < 1) (k : ℕ) (imageData : Frame) :
    20 ≤ (connectedComponentsProposal eng rnd k imageData).1.length ∧
      (connectedComponentsProposal eng rnd k imageData).1.length ≤ 34 ∧
      (connectedComponentsProposal eng rnd k imageData).1.map (fun r => r.id) =
        (List.range (connectedComponentsProposal eng rnd k imageData).1.length).map
          (fun i => "component_" ++ toString i) ∧
      (connectedComponentsProposal eng rnd k imageData).1.map (fun r => r.label) =
        (List.range (connectedComponentsProposal eng rnd k imageData).1.length).map
          (fun i => some (i + 1)) := by
  have hlen : (connectedComponentsProposal eng rnd k imageData).1.length =
      (mathFloor (rnd k * 15) + 20).toNat := by
    unfold connectedComponentsProposal
    simp only [foldl_push_length, List.length_nil, List.length_range, Nat.zero_add]
  have hlo : (0 : ℤ) ≤ mathFloor (rnd k * 15) := by
    unfold mathFloor
    rw [Int.le_floor]
    have := (hrnd k).1
    push_cast
    linarith
  have hhi : mathFloor (rnd k * 15) < 15 := by
    unfold mathFloor
    rw [Int.floor_lt]
    have := (hrnd k).2
    push_cast
    linarith
  refine ⟨by omega, by omega, ?_, ?_⟩
  · rw [hlen]
    unfold connectedComponentsProposal
    rw [foldl_push_map (fun k i => componentRegion eng rnd k i) 6 (fun r => r.id)
      (fun i => "component_" ++ toString i)]
    · rfl
    · intro k i
      show toString "component_" ++ toString i ++ toString "" = _
      simp only [instToStringString, String.append_empty]
  · rw [hlen]
    unfold connectedComponentsProposal
    rw [foldl_push_map (fun k i => componentRegion eng rnd k i) 6 (fun r => r.label)
      (fun i => some (i + 1)) (fun _ _ => rfl)]
    rfl

/-- C12 (witness): every draw 1/2 gives 27 components. -/
theorem connectedComponentsProposal_count_ids_witness :
    (∀ n : ℕ, 0 ≤ (fun _ => 1 / 2 : Draws) n ∧ (fun _ => 1 / 2 : Draws) n < 1) ∧
      20 ≤ (connectedComponentsProposal Engine.new (fun _ => 1 / 2) 0 zeroFrame).1.length ∧
      (connectedComponentsProposal Engine.new (fun _ => 1 / 2) 0 zeroFrame).1.length ≤ 34 ∧
      (connectedComponentsProposal Engine.new (fun _ => 1 / 2) 0 zeroFrame).1.map
          (fun r => r.id) =
        (List.range
          (connectedComponentsProposal Engine.new (fun _ => 1 / 2) 0 zeroFrame).1.length).map
          (fun i => "component_" ++ toString i) ∧
      (connectedComponentsProposal Engine.new (fun _ => 1 / 2) 0 zeroFrame).1.map
          (fun r => r.label) =
        (List.range
          (connectedComponentsProposal Engine.new (fun _ => 1 / 2) 0 zeroFrame).1.length).map
          (fun i => some (i + 1)) :=
  ⟨fun _ => by norm_num,
    connectedComponentsProposal_count_ids Engine.new (fun _ => 1 / 2) (fun _ => by norm_num) 0
      zeroFrame⟩

/-- C13 (counterexample): `generateAnchors` returns 288 anchors, not 108, and
when every draw is 1/2 `deepLearningProposal` returns 288 regions. -/
theorem generateAnchors_count_288 :
    (generateAnchors sampleSqrt).length = 288 ∧
      (deepLearningProposal sampleSqrt Engine.new (fun _ => 1 / 2) 0 zeroFrame).1.length =
        288 := by
  refine ⟨generateAnchors_length _, ?_⟩
  unfold deepLearningProposal
  rw [foldl_survivors_length_all Engine.new (fun _ => 1 / 2) (fun _ => by norm_num)]
  simp only [List.length_nil, List.enum_length, generateAnchors_length, Nat.zero_add]

/-- C13 (amended): `generateAnchors` returns exactly 288 anchors (the 4 x 8
grid crossed with 3 scales and 3 aspect ratios), and `deepLearningProposal`
returns at most 288 regions for every sequence of draws. -/
theorem deepLearningProposal_at_most_288 (sqrt : ℚ → ℚ) (eng : Engine) (rnd : Draws) (k : ℕ)
    (imageData : Frame) :
    (generateAnchors sqrt).length = 288 ∧
      (deepLearningProposal sqrt eng rnd k imageData).1.length ≤ 288 := by
  refine ⟨generateAnchors_length sqrt, ?_⟩
  unfold deepLearningProposal
  refine (foldl_survivors_length_le eng rnd _ _ _).trans ?_
  simp only [List.length_nil, List.enum_length, generateAnchors_length, Nat.zero_add, le_refl]

/-- C14 (counterexample): for a frame of zero area and every draw 0 the first
grid region is 60 x 80 and the first anchor has positive width and height;
that region, with its features extracted and classified by `sift_modified`,
is returned by `validateAndFilter` as a 60 x 80 spot. -/
theorem zeroFrame_regions_not_degenerate :
    (edgeDetectionProposal Engine.new (fun _ => 0) 0 zeroFrame).1.head?.map
        (fun r => (r.width, r.height)) = some (60, 80) ∧
      (generateAnchors sampleSqrt).head?.map
        (fun a => decide (0 < a.width ∧ 0 < a.height)) = some true ∧
      (validateAndFilter Engine.new (fun _ => 0) 0
        (siftClassification Engine.new (fun _ => 0) 0
          (extractFeatures (fun _ => 0) 0 zeroFrame
            ((edgeDetectionProposal Engine.new (fun _ => 0) 0 zeroFrame).1.take 1)).1).1).1.map
        (fun s => (s.width, s.height)) = [(60, 80)] := by
  refine ⟨?_, ?_, ?_⟩
  · rw [edgeDetectionProposal_cells]
    norm_num [List.range_succ, edgeRegion]
  · norm_num [generateAnchors, List.range_succ, sampleSqrt]
  · rw [edgeDetectionProposal_cells]
    norm_num [List.range_succ, edgeRegion, extractFeatures, extractFeature, arrayMap,
      siftClassification, siftClassify, validateAndFilter, geometricGate, emitSpot, arraySort,
      Engine.new, mathRound]

/-- C14 (amended): for a frame of zero area `edgeDetectionProposal` returns,
with the same draws, exactly the 32 regions it returns for any other frame,
and `generateAnchors`, which takes no frame, its fixed set of 288 anchors: the
size of the frame does not enter the geometry. -/
theorem proposals_ignore_frame (sqrt : ℚ → ℚ) (eng : Engine) (rnd : Draws) (k : ℕ)
    (imageData : Frame) :
    edgeDetectionProposal eng rnd k zeroFrame = edgeDetectionProposal eng rnd k imageData ∧
      (edgeDetectionProposal eng rnd k zeroFrame).1.length = 32 ∧
      (generateAnchors sqrt).length = 288 := by
  refine ⟨rfl, ?_, generateAnchors_length sqrt⟩
  simp [edgeDetectionProposal, List.range_succ]

/-! ## Claims on feature extraction and dispatch -/

/-- `extractFeatures` copies the shared fields of every region, in order. -/
theorem extractFeatures_base (rnd : Draws) (k : ℕ) (imageData : Frame) (regions : List Region) :
    (extractFeatures rnd k imageData regions).1.map (fun f => f.toRegionBase) =
      regions.map (fun r => r.toRegionBase) :=
  arrayMap_map_eq extractFeature rnd _ _ (fun _ _ _ => rfl) regions k 0

/-- Every classification strategy copies its candidates, in order. -/
theorem classifySpots_featured (eng : Engine) (rnd : Draws) (k : ℕ)
    (features : List FeaturedRegion) (method : String) :
    (classifySpots eng rnd k features method).1.map (fun s => s.toFeaturedRegion) = features := by
  have hsift : (siftClassification eng rnd k features).1.map (fun s => s.toFeaturedRegion) =
      features := by
    unfold siftClassification
    rw [arrayMap_map_eq (siftClassify eng) rnd _ (fun f => f) (fun _ _ _ => rfl)]
    exact List.map_id _
  have hmlp : (mlpClassification eng rnd k features).1.map (fun s => s.toFeaturedRegion) =
      features := by
    unfold mlpClassification
    rw [arrayMap_map_eq (mlpClassify eng) rnd _ (fun f => f) (fun _ _ _ => rfl)]
    exact List.map_id _
  unfold classifySpots
  split_ifs
  · exact hsift
  · exact hmlp
  · simp only [resnetClassification, List.map_map]
    exact List.map_id _
  · simp only [dcnClassification, List.map_map]
    exact List.map_id _
  · exact hmlp

/-- C15: for every list of regions and every classification strategy name,
`extractFeatures` followed by `classifySpots` returns a list of the same
length whose i-th element carries the id, x, y, width, height and confidence
of the i-th region. -/
theorem extract_classify_preserve_regions (eng : Engine) (rnd : Draws) (k : ℕ)
    (imageData : Frame) (regions : List Region) (method : String) :
    (classifySpots eng rnd (extractFeatures rnd k imageData regions).2
        (extractFeatures rnd k imageData regions).1 method).1.length = regions.length ∧
      (classifySpots eng rnd (extractFeatures rnd k imageData regions).2
        (extractFeatures rnd k imageData regions).1 method).1.map
        (fun s => (s.id, s.x, s.y, s.width, s.height, s.confidence)) =
      regions.map (fun r => (r.id, r.x, r.y, r.width, r.height, r.confidence)) := by
  have hbase : (classifySpots eng rnd (extractFeatures rnd k imageData regions).2
      (extractFeatures rnd k imageData regions).1 method).1.map
        (fun s => s.toRegionBase) = regions.map (fun r => r.toRegionBase) := by
    rw [← extractFeatures_base rnd k imageData regions]
    conv_rhs => rw [← classifySpots_featured eng rnd (extractFeatures rnd k imageData regions).2
      (extractFeatures rnd k imageData regions).1 method]
    rw [List.map_map]
    rfl
  constructor
  · have := congrArg List.length hbase
    simpa only [List.length_map] using this
  · have := congrArg
      (List.map fun b : RegionBase => (b.id, b.x, b.y, b.width, b.height, b.confidence)) hbase
    simpa only [List.map_map] using this

/-- C16 (failing input): a region emitted by `deepLearningProposal` carries
`features = {activation, layer: 'conv5', receptiveField: 160}`, and
`extractFeatures` returns for it what it returns for the same region without
that attribute: the emitted `features` is replaced, not kept. -/
theorem extractFeatures_replaces_region_features (eng : Engine) (rnd : Draws) (k j : ℕ)
    (imageData : Frame) (anchor : Anchor) (index : ℕ) :
    (anchorRegion eng rnd j anchor index).features =
        some { activation := rnd (j + 1), layer := "conv5", receptiveField := 160 } ∧
      extractFeatures rnd k imageData [anchorRegion eng rnd j anchor index] =
        extractFeatures rnd k imageData
          [{ anchorRegion eng rnd j anchor index with features := none }] :=
  ⟨rfl, rfl⟩

/-- C17 (failing input): for a 60 x 60 region `extractGeometricFeatures`
returns area 3600, aspect ratio 1, rectangularity 1, perimeter 240 and
compactness `Math.PI`, four times the isoperimetric ratio
`4 * Math.PI * area / perimeter ^ 2 = Math.PI / 4`. -/
theorem extractGeometricFeatures_square :
    (extractGeometricFeatures sampleSquare).area = 3600 ∧
      (extractGeometricFeatures sampleSquare).aspectRatio = 1 ∧
      (extractGeometricFeatures sampleSquare).rectangularity = 1 ∧
      (extractGeometricFeatures sampleSquare).perimeter = 240 ∧
      (extractGeometricFeatures sampleSquare).compactness = mathPI ∧
      4 * mathPI * (extractGeometricFeatures sampleSquare).area /
        (extractGeometricFeatures sampleSquare).perimeter ^ 2 = mathPI / 4 ∧
      mathPI ≠ mathPI / 4 := by
  refine ⟨?_, ?_, ?_, ?_, ?_, ?_, ?_⟩ <;>
    norm_num [extractGeometricFeatures, sampleSquare, mathPI]

/-- C18 (counterexample): for the name "bogus" `proposeRegions` returns the
grid regions and `classifySpots` the mlp classification instead of failing,
and `detectParkingSpots` returns a result whose metadata has
`detectionMethod = "bogus"`, 32 candidates and no `fallbackUsed`. -/
theorem unknown_strategy_not_rejected :
    proposeRegions sampleSqrt Engine.new (fun _ => 0) 0 zeroFrame "bogus" =
        edgeDetectionProposal Engine.new (fun _ => 0) 0 zeroFrame ∧
      classifySpots Engine.new (fun _ => 0) 0 [sampleFeature 0 0 0.7] "bogus" =
        mlpClassification Engine.new (fun _ => 0) 0 [sampleFeature 0 0 0.7] ∧
      (detectParkingSpots sampleSqrt Engine.new (fun _ => 0) 0 0 zeroFrame
        { regionMethod := some "bogus" }).1.metadata.detectionMethod = "bogus" ∧
      (detectParkingSpots sampleSqrt Engine.new (fun _ => 0) 0 0 zeroFrame
        { regionMethod := some "bogus" }).1.metadata.totalCandidates = 32 ∧
      (detectParkingSpots sampleSqrt Engine.new (fun _ => 0) 0 0 zeroFrame
        { regionMethod := some "bogus" }).1.metadata.fallbackUsed = none := by
  have hp : ∀ imageData : Frame,
      proposeRegions sampleSqrt Engine.new (fun _ => 0) 0 imageData "bogus" =
        edgeDetectionProposal Engine.new (fun _ => 0) 0 imageData := by
    intro imageData
    simp [proposeRegions, Engine.new]
  refine ⟨hp _, ?_, rfl, ?_, rfl⟩
  · simp [classifySpots, Engine.new]
  · simp only [detectParkingSpots, Option.getD_some, hp]
    simp [edgeDetectionProposal, List.range_succ]

/-- C18 (amended): for every name that is not one of the four region
proposal names, `proposeRegions` returns what `edgeDetectionProposal` returns,
and for every name that is not one of the four classification names,
`classifySpots` returns what `mlpClassification` returns (the `default`
branches); `detectParkingSpots` called with such a regionMethod (or
classificationMethod) returns the spots of the default strategy with the given
name in its metadata and no `fallbackUsed`. -/
theorem unknown_strategy_takes_default (sqrt : ℚ → ℚ) (rnd : Draws) (k : ℕ) (now : ℤ)
    (imageData : Frame) (features : List FeaturedRegion) (options : DetectionOptions)
    (regionName className : String)
    (hregion : regionName ∉
      ["edge_detection", "selective_search", "connected_components", "deep_learning"])
    (hclass : className ∉ ["sift_modified", "mlp_classifier", "resnet34", "dcnn"]) :
    proposeRegions sqrt Engine.new rnd k imageData regionName =
        edgeDetectionProposal Engine.new rnd k imageData ∧
      classifySpots Engine.new rnd k features className =
        mlpClassification Engine.new rnd k features ∧
      (detectParkingSpots sqrt Engine.new rnd k now imageData
          { options with regionMethod := some regionName }).1.spots =
        (detectParkingSpots sqrt Engine.new rnd k now imageData
          { options with regionMethod := some "edge_detection" }).1.spots ∧
      (detectParkingSpots sqrt Engine.new rnd k now imageData
          { options with regionMethod := some regionName }).1.metadata.detectionMethod =
        regionName ∧
      (detectParkingSpots sqrt Engine.new rnd k now imageData
          { options with regionMethod := some regionName }).1.metadata.fallbackUsed = none ∧
      (detectParkingSpots sqrt Engine.new rnd k now imageData
          { options with classificationMethod := some className }).1.spots =
        (detectParkingSpots sqrt Engine.new rnd k now imageData
          { options with classificationMethod := some "mlp_classifier" }).1.spots ∧
      (detectParkingSpots sqrt Engine.new rnd k now imageData
          { options with classificationMethod := some className }).1.metadata.classificationMethod =
        className ∧
      (detectParkingSpots sqrt Engine.new rnd k now imageData
          { options with classificationMethod := some className }).1.metadata.fallbackUsed =
        none := by
  simp only [List.mem_cons, List.mem_singleton, List.not_mem_nil, or_false, not_or]
    at hregion hclass
  obtain ⟨hr1, hr2, hr3, hr4⟩ := hregion
  obtain ⟨hc1, hc2, hc3, hc4⟩ := hclass
  have hp : ∀ (j : ℕ) (img : Frame), proposeRegions sqrt Engine.new rnd j img regionName =
      edgeDetectionProposal Engine.new rnd j img := by
    intro j img
    simp only [proposeRegions, Engine.new, if_neg hr1, if_neg hr2, if_neg hr3, if_neg hr4]
  have hp' : ∀ (j : ℕ) (img : Frame),
      proposeRegions sqrt Engine.new rnd j img "edge_detection" =
        edgeDetectionProposal Engine.new rnd j img := by
    intro j img
    simp only [proposeRegions, Engine.new, if_true]
  have hcl : ∀ (j : ℕ) (fs : List FeaturedRegion),
      classifySpots Engine.new rnd j fs className = mlpClassification Engine.new rnd j fs := by
    intro j fs
    simp only [classifySpots, Engine.new, if_neg hc1, if_neg hc2, if_neg hc3, if_neg hc4]
  have hcl' : ∀ (j : ℕ) (fs : List FeaturedRegion),
      classifySpots Engine.new rnd j fs "mlp_classifier" =
        mlpClassification Engine.new rnd j fs := by
    intro j fs
    simp [classifySpots, Engine.new]
  refine ⟨hp _ _, hcl _ _, ?_, rfl, rfl, ?_, rfl, rfl⟩
  · simp only [detectParkingSpots, Option.getD_some, hp, hp']
  · simp only [detectParkingSpots, Option.getD_some, hcl, hcl']

/-- C18 (witness): the region name "dcnn", which is a classification name,
and the classification name "ensemble" that `CameraFeedDetector.js` passes. -/
theorem unknown_strategy_takes_default_witness :
    "dcnn" ∉ ["edge_detection", "selective_search", "connected_components", "deep_learning"] ∧
      "ensemble" ∉ ["sift_modified", "mlp_classifier", "resnet34", "dcnn"] ∧
      proposeRegions sampleSqrt Engine.new (fun _ => 0) 0 zeroFrame "dcnn" =
        edgeDetectionProposal Engine.new (fun _ => 0) 0 zeroFrame ∧
      classifySpots Engine.new (fun _ => 0) 0 [sampleFeature 0 0 0.7] "ensemble" =
        mlpClassification Engine.new (fun _ => 0) 0 [sampleFeature 0 0 0.7] :=
  ⟨by decide, by decide,
    (unknown_strategy_takes_default sampleSqrt (fun _ => 0) 0 0 zeroFrame
      [sampleFeature 0 0 0.7] {} "dcnn" "ensemble" (by decide) (by decide)).1,
    (unknown_strategy_takes_default sampleSqrt (fun _ => 0) 0 0 zeroFrame
      [sampleFeature 0 0 0.7] {} "dcnn" "ensemble" (by decide) (by decide)).2.1⟩

/-! ## Claims on malformed bundles and on the status draw -/

/-- On a complete bundle the model with optional fields computes what
`mlpClassify` computes. -/
theorem mlpClassifyRaw_toRaw (eng : Engine) (rnd : Draws) (k : ℕ) (feature : FeaturedRegion)
    (index : ℕ) :
    mlpClassifyRaw eng feature.features.toRaw =
      .ok
        { isParkingSpot := (mlpClassify eng rnd k feature index).1.classification.isParkingSpot
          confidence := some (mlpClassify eng rnd k feature index).1.classification.confidence } := by
  simp only [mlpClassifyRaw, scoreGeometricFeaturesRaw, scoreIntensityFeaturesRaw,
    scoreTextureFeaturesRaw, FeatureBundle.toRaw, mlpClassify, scoreGeometricFeatures,
    scoreIntensityFeatures, scoreTextureFeatures, nanAdd, nanSub, nanMul, nanDiv, nanMin, nanMax,
    nanGe, nanLe, nanGt, Option.bind, Option.map]
  split_ifs <;> simp_all

/-- C19 (counterexample): with `gabor` missing `mlpClassification` yields
confidence `NaN` and decision false, whereas with 0 in its place it yields
confidence 0.8 and decision true; with the `geometric` group missing it raises
a `TypeError`, whereas with zeros in its place it returns. -/
theorem mlpClassifyRaw_missing_not_zero :
    mlpClassifyRaw Engine.new sampleBundleNoGabor =
        .ok { isParkingSpot := false, confidence := none } ∧
      mlpClassifyRaw Engine.new (fillMissingWithZero sampleBundleNoGabor) =
        .ok { isParkingSpot := true, confidence := some 0.8 } ∧
      mlpClassifyRaw Engine.new sampleBundleNoGeometric = .error "TypeError" ∧
      mlpClassifyRaw Engine.new (fillMissingWithZero sampleBundleNoGeometric) =
        .ok { isParkingSpot := false, confidence := some (1 / 2) } := by
  refine ⟨?_, ?_, ?_, ?_⟩ <;>
    norm_num [mlpClassifyRaw, scoreGeometricFeaturesRaw, scoreIntensityFeaturesRaw,
      scoreTextureFeaturesRaw, fillMissingWithZero, sampleBundleNoGabor,
      sampleBundleNoGeometric, Engine.new, nanAdd, nanSub, nanMul, nanDiv, nanMin, nanMax, nanGe,
      nanLe, nanGt]

theorem nanAdd_some (x y : ℚ) : nanAdd (some x) (some y) = some (x + y) := rfl

theorem nanSub_some (x y : ℚ) : nanSub (some x) (some y) = some (x - y) := rfl

theorem nanMul_some (x y : ℚ) : nanMul (some x) (some y) = some (x * y) := rfl

theorem nanDiv_some (x y : ℚ) : nanDiv (some x) (some y) = some (x / y) := rfl

theorem nanMin_some (x y : ℚ) : nanMin (some x) (some y) = some (min x y) := rfl

theorem nanMax_some (x y : ℚ) : nanMax (some x) (some y) = some (max x y) := rfl

theorem nanAdd_none_left (b : Option ℚ) : nanAdd none b = none := rfl

theorem nanAdd_none_right (a : Option ℚ) : nanAdd a none = none := by cases a <;> rfl

theorem nanMul_none_left (b : Option ℚ) : nanMul none b = none := rfl

theorem nanDiv_none_left (b : Option ℚ) : nanDiv none b = none := rfl

theorem nanSub_none_right (a : Option ℚ) : nanSub a none = none := by cases a <;> rfl

theorem nanMin_none_right (a : Option ℚ) : nanMin a none = none := by cases a <;> rfl

theorem nanMax_none_right (a : Option ℚ) : nanMax a none = none := by cases a <;> rfl

theorem nanGt_none_left (b : Option ℚ) : nanGt none b = false := rfl

/-- A missing rectangularity or compactness makes the geometric score `NaN`. -/
theorem scoreGeometricFeaturesRaw_nan (area aspectRatio rectangularity compactness : Option ℚ)
    (h : rectangularity = none ∨ compactness = none) :
    scoreGeometricFeaturesRaw (some ⟨area, aspectRatio, rectangularity, compactness⟩) =
      .ok none := by
  have htail : ∀ s : Option ℚ,
      nanAdd (nanAdd s (nanMul rectangularity (some 0.2))) (nanMul compactness (some 0.2)) =
        none := by
    intro s
    rcases h with h | h <;> subst h
    · rw [nanMul_none_left, nanAdd_none_right, nanAdd_none_left]
    · rw [nanMul_none_left, nanAdd_none_right]
  simp only [scoreGeometricFeaturesRaw, htail]

/-- A missing aspectRatio or area scores as 0 does, and the score is a number
when rectangularity and compactness are present. -/
theorem scoreGeometricFeaturesRaw_fill (area aspectRatio : Option ℚ) (r c : ℚ) :
    ∃ v : ℚ,
      scoreGeometricFeaturesRaw (some ⟨area, aspectRatio, some r, some c⟩) = .ok (some v) ∧
      scoreGeometricFeaturesRaw
        (some ⟨some (area.getD 0), some (aspectRatio.getD 0), some r, some c⟩) =
          .ok (some v) := by
  have hzero7 : nanGe (some 0) (some 0.7) = false := by norm_num [nanGe]
  have hzero1000 : nanGe (some 0) (some 1000) = false := by norm_num [nanGe]
  have hnone : ∀ y : Option ℚ, nanGe none y = false := fun _ => rfl
  cases area <;> cases aspectRatio <;>
    simp only [scoreGeometricFeaturesRaw, Option.getD, hzero7, hzero1000, hnone,
      Bool.false_and, Bool.false_eq_true, if_false] <;>
    (try split_ifs) <;> simp only [nanAdd_some, nanMul_some] <;> exact ⟨_, rfl, rfl⟩

/-- C19 (amended): `mlpClassification` has no default for a missing field. If
the geometric, intensity or texture group is missing it raises a `TypeError`;
if the groups are present and one of rectangularity, compactness, stdDev, lbp,
hog, gabor is missing, the confidence is `NaN` and the decision false; if
these six numbers are present, the result is the one obtained with a missing
aspectRatio or area replaced by 0. -/
theorem mlpClassifyRaw_missing_fields (eng : Engine) (b : RawFeatureBundle) :
    mlpClassifyRaw eng b =
      match b.geometric, b.intensity, b.texture with
      | some geo, some intensity, some texture =>
        if geo.rectangularity.isSome && geo.compactness.isSome && intensity.stdDev.isSome &&
            texture.lbp.isSome && texture.hog.isSome && texture.gabor.isSome then
          mlpClassifyRaw eng (fillMissingWithZero b)
        else .ok { isParkingSpot := false, confidence := none }
      | _, _, _ => .error "TypeError" := by
  obtain ⟨geometric, intensity, texture⟩ := b
  cases geometric with
  | none => simp [mlpClassifyRaw, scoreGeometricFeaturesRaw]
  | some geo =>
    obtain ⟨area, aspectRatio, rectangularity, compactness⟩ := geo
    cases intensity with
    | none => simp [mlpClassifyRaw, scoreGeometricFeaturesRaw, scoreIntensityFeaturesRaw]
    | some intensity =>
      obtain ⟨stdDev⟩ := intensity
      cases texture with
      | none =>
        simp [mlpClassifyRaw, scoreGeometricFeaturesRaw, scoreIntensityFeaturesRaw,
          scoreTextureFeaturesRaw]
      | some texture =>
        obtain ⟨lbp, hog, gabor⟩ := texture
        cases rectangularity with
        | none =>
          simp [mlpClassifyRaw, scoreGeometricFeaturesRaw_nan, scoreIntensityFeaturesRaw,
            scoreTextureFeaturesRaw, nanMul_none_left, nanAdd_none_left, nanMin_none_right,
            nanMax_none_right, nanGt]
        | some r =>
          cases compactness with
          | none =>
            simp [mlpClassifyRaw, scoreGeometricFeaturesRaw_nan, scoreIntensityFeaturesRaw,
              scoreTextureFeaturesRaw, nanMul_none_left, nanAdd_none_left, nanMin_none_right,
              nanMax_none_right, nanGt]
          | some c =>
            obtain ⟨v, hv, hv0⟩ := scoreGeometricFeaturesRaw_fill area aspectRatio r c
            cases stdDev <;> cases lbp <;> cases hog <;> cases gabor <;>
              simp [mlpClassifyRaw, fillMissingWithZero, hv, hv0, scoreIntensityFeaturesRaw,
                scoreTextureFeaturesRaw, nanMul, nanAdd, nanSub, nanDiv, nanMin, nanMax, nanGt]

/-- C20 (failing input): whatever the draw, `determineSpotStatus` never returns
'reserved'. It returns 'occupied' exactly for the draws above 0.7 (0.95 among
them) and 'available' exactly for the draws up to 0.7. -/
theorem determineSpotStatus_never_reserved (rnd : Draws) (k : ℕ) (spot : ClassifiedSpot) :
    (determineSpotStatus rnd k spot).1 ≠ "reserved" ∧
      ((determineSpotStatus rnd k spot).1 = "occupied" ↔ rnd k > 0.7) ∧
      ((determineSpotStatus rnd k spot).1 = "available" ↔ rnd k ≤ 0.7) ∧
      (determineSpotStatus (fun _ => 0.95) k spot).1 = "occupied" := by
  have h95 : (determineSpotStatus (fun _ => 0.95) k spot).1 = "occupied" := by
    norm_num [determineSpotStatus]
  by_cases h7 : rnd k > 0.7
  · have hv : (determineSpotStatus rnd k spot).1 = "occupied" := by
      simp only [determineSpotStatus, if_pos h7]
    rw [hv]
    exact ⟨by decide, iff_of_true rfl h7, iff_of_false (by decide) (not_le.mpr h7), h95⟩
  · have h9 : ¬ rnd k > 0.9 := fun h => h7 (lt_trans (by norm_num) h)
    have hv : (determineSpotStatus rnd k spot).1 = "available" := by
      simp only [determineSpotStatus, if_neg h7, if_neg h9]
    rw [hv]
    exact ⟨by decide, iff_of_false (by decide) h7, iff_of_true rfl (not_lt.mp h7), h95⟩

/-! ## Lemmas on the fallback result and the `try` block -/

theorem getFallbackDetection_spots (rnd : Draws) (k : ℕ) :
    (getFallbackDetection rnd k).1.spots =
      (List.range 24).map fun i => fallbackSpot rnd (k + i) i := by
  simp [getFallbackDetection, List.range_succ]

/-- With the engine's own stage methods the `try` block returns, and the
pipeline with `catch` is the pipeline without. -/
theorem detectParkingSpotsWith_engineStages (sqrt : ℚ → ℚ) (eng : Engine) (rnd : Draws)
    (k : ℕ) (now : ℤ) (imageData : Frame) (options : DetectionOptions) :
    detectParkingSpotsWith (engineStages sqrt eng) eng rnd k now imageData options =
      detectParkingSpots sqrt eng rnd k now imageData options := by
  unfold detectParkingSpotsWith detectionAttempt engineStages detectParkingSpots
  cases h : options.enablePreprocessing.getD true <;> simp [h]

theorem fallbackSpot_y (rnd : Draws) (k i : ℕ) :
    (fallbackSpot rnd k i).y = ((i / 8 : ℕ) : ℤ) * 120 + 80 := by
  have h := Rat.floor_natCast_div_natCast i 8
  simp only [fallbackSpot, mathFloor]
  rw [show ((i : ℚ) / 8) = ((i : ℚ) / ((8 : ℕ) : ℚ)) by norm_num, h]
  norm_num

/-! ## Claims on the fallback result -/

/-- C21: for every sequence of draws `getFallbackDetection` returns exactly 24
spots, spot `i` (0-based) having id "P" + (i+1) zero-padded to 3 digits,
x = (i mod 8) * 90 + 50, y = floor(i / 8) * 120 + 80, width 75, height 95,
confidence 0.8, type 'regular', detectionMethod 'fallback' and
classificationMethod 'rule_based', with metadata.fallbackUsed = true,
metadata.detectionMethod = 'fallback' and metadata.detectedSpots = 24; the
spots with their status blanked do not depend on the draws. -/
theorem getFallbackDetection_result (rnd : Draws) (k : ℕ) :
    (getFallbackDetection rnd k).1.spots.length = 24 ∧
      (getFallbackDetection rnd k).1.spots =
        (List.range 24).map (fun i =>
          { id := "P" ++ padStart (toString (i + 1)) 3 '0'
            x := ((i % 8 : ℕ) : ℤ) * 90 + 50
            y := ((i / 8 : ℕ) : ℤ) * 120 + 80
            width := 75
            height := 95
            confidence := 0.8
            status := if rnd (k + i) > 0.6 then "occupied" else "available"
            type := "regular"
            detectionMethod := "fallback"
            classificationMethod := "rule_based"
            metadata := none }) ∧
      (getFallbackDetection rnd k).1.metadata.fallbackUsed = some true ∧
      (getFallbackDetection rnd k).1.metadata.detectionMethod = "fallback" ∧
      (getFallbackDetection rnd k).1.metadata.detectedSpots = 24 ∧
      (∀ (rnd' : Draws) (k' : ℕ),
        (getFallbackDetection rnd k).1.spots.map (fun s => { s with status := "" }) =
          (getFallbackDetection rnd' k').1.spots.map (fun s => { s with status := "" })) := by
  refine ⟨?_, ?_, rfl, rfl, rfl, ?_⟩
  · rw [getFallbackDetection_spots, List.length_map, List.length_range]
  · rw [getFallbackDetection_spots]
    refine List.map_congr_left fun i _ => ?_
    have hy := fallbackSpot_y rnd (k + i) i
    simp only [fallbackSpot] at hy ⊢
    rw [hy]
  · intro rnd' k'
    rw [getFallbackDetection_spots, getFallbackDetection_spots, List.map_map, List.map_map]
    rfl

/-- C22 (counterexample): with the draws 0, 0.1, ..., 0.9 repeating, the
spots whose draw is 0 to 0.6 are 'available' and those whose draw is 0.7 to
0.9 are 'occupied': 'available' covers the draws up to 0.6. -/
theorem fallback_status_sample :
    (getFallbackDetection (fun n => ((n % 10 : ℕ) : ℚ) / 10) 0).1.spots.map
        (fun s => s.status) =
      ["available", "available", "available", "available", "available", "available",
        "available", "occupied", "occupied", "occupied",
        "available", "available", "available", "available", "available", "available",
        "available", "occupied", "occupied", "occupied",
        "available", "available", "available", "available"] := by
  rw [getFallbackDetection_spots]
  norm_num [List.range_succ, fallbackSpot]

/-- C22 (amended): as a function of its draw `r`, the status of each fallback
spot is 'occupied' exactly when `r > 0.6` (the draws in (0.6, 1), length 0.4)
and 'available' exactly when `r ≤ 0.6` (the draws in [0, 0.6], length 0.6). -/
theorem fallback_status_by_draw (rnd : Draws) (k i : ℕ) :
    ((fallbackSpot rnd k i).status = "occupied" ↔ rnd k > 0.6) ∧
      ((fallbackSpot rnd k i).status = "available" ↔ rnd k ≤ 0.6) ∧
      (getFallbackDetection rnd k).1.spots.map (fun s => s.status) =
        (List.range 24).map (fun j => (fallbackSpot rnd (k + j) j).status) := by
  have hlist : (getFallbackDetection rnd k).1.spots.map (fun s => s.status) =
      (List.range 24).map (fun j => (fallbackSpot rnd (k + j) j).status) := by
    rw [getFallbackDetection_spots, List.map_map]
    rfl
  by_cases h : rnd k > 0.6
  · have hv : (fallbackSpot rnd k i).status = "occupied" := by
      simp only [fallbackSpot, if_pos h]
    rw [hv]
    exact ⟨iff_of_true rfl h, iff_of_false (by decide) (not_le.mpr h), hlist⟩
  · have hv : (fallbackSpot rnd k i).status = "available" := by
      simp only [fallbackSpot, if_neg h]
    rw [hv]
    exact ⟨iff_of_false (by decide) h, iff_of_true rfl (not_lt.mp h), hlist⟩

/-! ## Claims on the pipeline -/

/-- C23: if a stage method that `detectParkingSpots` calls raises (the
preprocessor when enabled, or any later stage on what the earlier ones
returned), the call returns the fallback result: exactly 24 spots,
`metadata.fallbackUsed = true` and `detectionMethod = "fallback"`. -/
theorem detect_falls_back_when_stage_raises (stages : StageMethods) (eng : Engine)
    (rnd : Draws) (k : ℕ) (now : ℤ) (imageData : Frame) (options : DetectionOptions)
    (processedImage : Frame) (k0 : ℕ) (candidateRegions : List Region) (k1 : ℕ)
    (features : List FeaturedRegion) (k2 : ℕ) (classifiedSpots : List ClassifiedSpot) (k3 : ℕ)
    (error : String) (j : ℕ)
    (hraise :
      (options.enablePreprocessing.getD true = true ∧
        stages.preprocessImage k imageData = .raised error j) ∨
      ((if options.enablePreprocessing.getD true then stages.preprocessImage k imageData
          else .returned imageData k) = .returned processedImage k0 ∧
        (stages.proposeRegions rnd k0 processedImage
            (options.regionMethod.getD eng.detectionMethods.EDGE_DETECTION) =
            .raised error j ∨
          (stages.proposeRegions rnd k0 processedImage
              (options.regionMethod.getD eng.detectionMethods.EDGE_DETECTION) =
              .returned candidateRegions k1 ∧
            (stages.extractFeatures rnd k1 processedImage candidateRegions = .raised error j ∨
              (stages.extractFeatures rnd k1 processedImage candidateRegions =
                  .returned features k2 ∧
                (stages.classifySpots rnd k2 features
                    (options.classificationMethod.getD
                      eng.classificationMethods.MLP_CLASSIFIER) = .raised error j ∨
                  (stages.classifySpots rnd k2 features
                      (options.classificationMethod.getD
                        eng.classificationMethods.MLP_CLASSIFIER) =
                      .returned classifiedSpots k3 ∧
                    stages.validateAndFilter rnd k3 classifiedSpots =
                      .raised error j)))))))) :
    detectParkingSpotsWith stages eng rnd k now imageData options =
        getFallbackDetection rnd j ∧
      (detectParkingSpotsWith stages eng rnd k now imageData options).1.spots.length = 24 ∧
      (detectParkingSpotsWith stages eng rnd k now imageData options).1.metadata.fallbackUsed =
        some true ∧
      (detectParkingSpotsWith stages eng rnd k now imageData options).1.metadata.detectionMethod =
        "fallback" := by
  have hattempt : detectionAttempt stages eng rnd k now imageData options =
      .raised error j := by
    unfold detectionAttempt
    rcases hraise with ⟨hen, h⟩ | ⟨hp, h | ⟨hr, h | ⟨hf, h | ⟨hc, h⟩⟩⟩⟩
    · simp only [hen, if_true, h]
    · simp only [hp, h]
    · simp only [hp, hr, h]
    · simp only [hp, hr, hf, h]
    · simp only [hp, hr, hf, hc, h]
  have hresult : detectParkingSpotsWith stages eng rnd k now imageData options =
      getFallbackDetection rnd j := by
    unfold detectParkingSpotsWith
    rw [hattempt]
  rw [hresult]
  refine ⟨rfl, ?_, rfl, rfl⟩
  rw [getFallbackDetection_spots, List.length_map, List.length_range]

/-- C23 (witness): a `proposeRegions` that raises after the preprocessor has
returned. -/
theorem detect_falls_back_when_stage_raises_witness :
    failingStages.proposeRegions (fun _ => 0) 0 (preprocessImage zeroFrame) "edge_detection" =
        .raised "StageFailure" 0 ∧
      detectParkingSpotsWith failingStages Engine.new (fun _ => 0) 0 0 zeroFrame {} =
        getFallbackDetection (fun _ => 0) 0 ∧
      (detectParkingSpotsWith failingStages Engine.new (fun _ => 0) 0 0 zeroFrame
        {}).1.spots.length = 24 ∧
      (detectParkingSpotsWith failingStages Engine.new (fun _ => 0) 0 0 zeroFrame
        {}).1.metadata.fallbackUsed = some true ∧
      (detectParkingSpotsWith failingStages Engine.new (fun _ => 0) 0 0 zeroFrame
        {}).1.metadata.detectionMethod = "fallback" :=
  ⟨rfl,
    detect_falls_back_when_stage_raises failingStages Engine.new (fun _ => 0) 0 0 zeroFrame {}
      (preprocessImage zeroFrame) 0 [] 0 [] 0 [] 0 "StageFailure" 0
      (Or.inr ⟨rfl, Or.inl rfl⟩)⟩

/-- C25: for every frame and the same draws, `detectParkingSpots(frame, {})`
returns what it returns for the options `edge_detection`, `mlp_classifier`
and preprocessing enabled, with or without stage methods that may raise. -/
theorem detect_default_options (sqrt : ℚ → ℚ) (stages : StageMethods) (rnd : Draws) (k : ℕ)
    (now : ℤ) (imageData : Frame) :
    detectParkingSpots sqrt Engine.new rnd k now imageData {} =
        detectParkingSpots sqrt Engine.new rnd k now imageData
          { regionMethod := some "edge_detection"
            classificationMethod := some "mlp_classifier"
            enablePreprocessing := some true } ∧
      detectParkingSpotsWith stages Engine.new rnd k now imageData {} =
        detectParkingSpotsWith stages Engine.new rnd k now imageData
          { regionMethod := some "edge_detection"
            classificationMethod := some "mlp_classifier"
            enablePreprocessing := some true } :=
  ⟨rfl, rfl⟩

/-- C28 (failing input): for the browser `ImageData` that
`CameraFeedDetector.js` passes, `preprocessImage` returns an object without
width, height and buffer, carrying only `processed = true` and the three
filter names, so that the grid proposal reads the default width 800 from it.
In general the copy keeps width, height and buffer exactly when they are own
properties of the frame; with preprocessing disabled the pipeline runs as it
does with a preprocessor that returns its frame unchanged. -/
theorem preprocessImage_drops_prototype_accessors (stages : StageMethods) (eng : Engine)
    (rnd : Draws) (k : ℕ) (now : ℤ) (imageData : Frame) (options : DetectionOptions) :
    cameraFrame.width = some 640 ∧
      (preprocessImage cameraFrame).width = none ∧
      (preprocessImage cameraFrame).height = none ∧
      (preprocessImage cameraFrame).data = none ∧
      orDefault (preprocessImage cameraFrame).width 800 = 800 ∧
      (preprocessImage imageData).width =
        (if imageData.onPrototype then none else imageData.width) ∧
      (preprocessImage imageData).height =
        (if imageData.onPrototype then none else imageData.height) ∧
      (preprocessImage imageData).data =
        (if imageData.onPrototype then none else imageData.data) ∧
      (preprocessImage imageData).processed = some true ∧
      (preprocessImage imageData).filters =
        some ["gaussian_blur", "contrast_enhancement", "noise_reduction"] ∧
      detectParkingSpotsWith stages eng rnd k now imageData
          { options with enablePreprocessing := some false } =
        detectParkingSpotsWith
          { stages with preprocessImage := fun k frame => .returned frame k } eng rnd k now
          imageData { options with enablePreprocessing := some true } := by
  refine ⟨rfl, rfl, rfl, rfl, rfl, ?_, ?_, ?_, ?_, ?_, rfl⟩ <;>
    cases h : imageData.onPrototype <;> simp [preprocessImage, h]

/-- The list `validateAndFilter` sorts: one spot per surviving candidate, in
input order. -/
theorem validateAndFilter_eq_sort (eng : Engine) (rnd : Draws) (k : ℕ)
    (cs : List ClassifiedSpot) :
    (validateAndFilter eng rnd k cs).1 =
      arraySort (fun a b => b.confidence - a.confidence)
        (arrayMap emitSpot rnd k 0
          (cs.filter fun c => c.classification.isParkingSpot && geometricGate eng c)).1 := by
  unfold validateAndFilter
  rw [validateAndFilter_kept]

/-- The metadata written for a candidate that passes the default gate lies in
the gate. -/
theorem emitSpot_metadata_bounds (rnd : Draws) (k index : ℕ) (c : ClassifiedSpot)
    (hgate : geometricGate Engine.new c = true) :
    ∃ m : SpotMetadata, (emitSpot rnd k c index).1.metadata = some m ∧
      500 ≤ m.area ∧ m.area ≤ 5000 ∧ 0.3 ≤ m.aspectRatio ∧ m.aspectRatio ≤ 3.0 := by
  simp only [geometricGate, Engine.new, ge_iff_le, Bool.and_eq_true, decide_eq_true_eq] at hgate
  obtain ⟨⟨⟨⟨hamin, hamax⟩, _⟩, hrmin⟩, hrmax⟩ := hgate
  refine ⟨_, rfl, ?_, ?_, ?_, ?_⟩
  · exact le_mathRound (by push_cast; exact hamin)
  · exact mathRound_le (by push_cast; exact hamax)
  · have h30 : (30 : ℤ) ≤ mathRound (c.width / c.height * 100) :=
      le_mathRound (by push_cast; linarith)
    have h30q : (30 : ℚ) ≤ (mathRound (c.width / c.height * 100) : ℚ) := by exact_mod_cast h30
    show (0.3 : ℚ) ≤ (mathRound (c.width / c.height * 100) : ℚ) / 100
    linarith
  · have h300 : mathRound (c.width / c.height * 100) ≤ (300 : ℤ) :=
      mathRound_le (by push_cast; linarith)
    have h300q : (mathRound (c.width / c.height * 100) : ℚ) ≤ (300 : ℚ) := by exact_mod_cast h300
    show (mathRound (c.width / c.height * 100) : ℚ) / 100 ≤ (3.0 : ℚ)
    linarith

/-- C24 (counterexample): every spot of the fallback result has
width * height = 7125, above 5000; and a candidate of size 61.5 x 80.5 (area
4950.75, inside the gate) is returned as a 62 x 81 spot of area 5022. -/
theorem fallback_spots_outside_gate :
    (getFallbackDetection (fun _ => 0) 0).1.spots.map (fun s => s.width * s.height) =
        List.replicate 24 7125 ∧
      (validateAndFilter Engine.new (fun _ => 0) 0
        [{ sampleSpot 0 0 0.7 with width := 61.5, height := 80.5 }]).1.map
        (fun s => (s.width, s.height, s.width * s.height)) = [(62, 81, 5022)] := by
  constructor
  · rw [getFallbackDetection_spots]
    simp [List.range_succ, fallbackSpot, List.replicate]
  · norm_num [validateAndFilter, arrayMap, arraySort, emitSpot, geometricGate, sampleSpot,
      sampleFeature, siftClassify, Engine.new, mathRound]

/-- C24 (amended): every spot that `detectParkingSpots` returns from its
pipeline was built from a candidate that passed the gate, and records it in
its metadata: `metadata.area` is in [500, 5000] and `metadata.aspectRatio` in
[0.3, 3.0]. The spots of the fallback result are not gated: each is 75 x 95,
of area 7125, without metadata. -/
theorem detect_spots_gate (sqrt : ℚ → ℚ) (rnd : Draws) (k : ℕ) (now : ℤ) (imageData : Frame)
    (options : DetectionOptions) :
    (∀ s ∈ (detectParkingSpots sqrt Engine.new rnd k now imageData options).1.spots,
        ∃ m : SpotMetadata, s.metadata = some m ∧
          500 ≤ m.area ∧ m.area ≤ 5000 ∧ 0.3 ≤ m.aspectRatio ∧ m.aspectRatio ≤ 3.0) ∧
      (∀ s ∈ (getFallbackDetection rnd k).1.spots,
        s.metadata = none ∧ s.width = 75 ∧ s.height = 95 ∧ s.width * s.height = 7125) := by
  constructor
  · intro s hs
    simp only [detectParkingSpots] at hs
    rw [validateAndFilter_eq_sort] at hs
    obtain ⟨c, hc, k1, i1, h1⟩ :=
      arrayMap_mem emitSpot rnd _ _ _ s ((arraySort_perm _ _).mem_iff.mp hs)
    rw [List.mem_filter] at hc
    have hgate : geometricGate Engine.new c = true := by
      have := hc.2
      simp only [Bool.and_eq_true] at this
      exact this.2
    rw [h1]
    exact emitSpot_metadata_bounds rnd k1 i1 c hgate
  · intro s hs
    rw [getFallbackDetection_spots, List.mem_map] at hs
    obtain ⟨i, _, rfl⟩ := hs
    exact ⟨rfl, rfl, rfl, rfl⟩

/-- C26 (counterexample): two candidates with classification confidences
0.801 and 0.804, in this order, are returned in the same order (both rounded
to 0.8), the one of lower classification confidence first. -/
theorem validateAndFilter_ranks_rounded :
    (validateAndFilter Engine.new (fun _ => 0) 0
        [sampleSpot 0 0 0.801, sampleSpot 0 1 0.804]).1.map
      (fun s => (s.id, s.confidence, s.metadata.map fun m => m.detectionScore)) =
      [("P001", 0.8, some 0.801), ("P002", 0.8, some 0.804)] ∧
      (sampleSpot 0 0 0.801).classification.confidence = 0.801 ∧
      (sampleSpot 0 1 0.804).classification.confidence = 0.804 := by
  refine ⟨?_, rfl, rfl⟩
  norm_num [validateAndFilter, arrayMap, arraySort, emitSpot, geometricGate, sampleSpot,
    sampleFeature, siftClassify, Engine.new, determineSpotStatus, determineSpotType, mathRound,
    List.insertionSort, List.orderedInsert]
  decide

/-- C26 (amended): `validateAndFilter` orders its output by the emitted,
rounded confidence, descending, with a stable sort: a spot that precedes
another in the output has a rounded confidence at least as large, and two
spots of equal rounded confidence keep the relative order in which their
candidates came in. -/
theorem validateAndFilter_stable_on_rounded (eng : Engine) (rnd : Draws) (k : ℕ)
    (cs : List ClassifiedSpot) :
    List.Pairwise (fun a b : ParkingSpot => a.confidence ≥ b.confidence)
        (validateAndFilter eng rnd k cs).1 ∧
      ∀ a b : ParkingSpot, a.confidence = b.confidence →
        List.Sublist [a, b]
          (arrayMap emitSpot rnd k 0
            ((cs.filter fun spot => spot.classification.isParkingSpot).filter
              (geometricGate eng))).1 →
        List.Sublist [a, b] (validateAndFilter eng rnd k cs).1 := by
  constructor
  · unfold validateAndFilter
    exact arraySort_confidence_sorted _
  · intro a b hab hsub
    unfold validateAndFilter arraySort
    have hrel : b.confidence - a.confidence ≤ 0 := by rw [hab, sub_self]
    exact List.pair_sublist_insertionSort hrel hsub

/-- C27: a new engine has the thresholds 0.75, 500, 5000, 0.3 and 3.0;
`updateThresholds` gives every threshold named in the overrides the new value,
keeps every other threshold and both strategy tables, and applying the same
overrides twice equals applying them once. -/
theorem updateThresholds_merges (eng : Engine) (o : ThresholdOverrides) :
    Engine.new.detectionThresholds =
        { confidence := 0.75, minSpotArea := 500, maxSpotArea := 5000, aspectRatioMin := 0.3,
          aspectRatioMax := 3.0 } ∧
      (updateThresholds eng o).detectionThresholds.confidence =
        (match o.confidence with
        | some v => v
        | none => eng.detectionThresholds.confidence) ∧
      (updateThresholds eng o).detectionThresholds.minSpotArea =
        (match o.minSpotArea with
        | some v => v
        | none => eng.detectionThresholds.minSpotArea) ∧
      (updateThresholds eng o).detectionThresholds.maxSpotArea =
        (match o.maxSpotArea with
        | some v => v
        | none => eng.detectionThresholds.maxSpotArea) ∧
      (updateThresholds eng o).detectionThresholds.aspectRatioMin =
        (match o.aspectRatioMin with
        | some v => v
        | none => eng.detectionThresholds.aspectRatioMin) ∧
      (updateThresholds eng o).detectionThresholds.aspectRatioMax =
        (match o.aspectRatioMax with
        | some v => v
        | none => eng.detectionThresholds.aspectRatioMax) ∧
      (updateThresholds eng o).detectionMethods = eng.detectionMethods ∧
      (updateThresholds eng o).classificationMethods = eng.classificationMethods ∧
      updateThresholds (updateThresholds eng o) o = updateThresholds eng o := by
  obtain ⟨c, mn, mx, rmin, rmax⟩ := o
  refine ⟨rfl, ?_, ?_, ?_, ?_, ?_, rfl, rfl, ?_⟩
  · cases c <;> rfl
  · cases mn <;> rfl
  · cases mx <;> rfl
  · cases rmin <;> rfl
  · cases rmax <;> rfl
  · cases c <;> cases mn <;> cases mx <;> cases rmin <;> cases rmax <;> rfl

/-! ## Lemmas on spot ids -/

theorem digitChar_value (m : ℕ) (hm : m < 10) : (Nat.digitChar m).toNat - 48 = m := by
  interval_cases m <;> rfl

/-- Reading back the digits that `Nat.toDigits` writes, given enough fuel. -/
theorem decode_toDigitsCore :
    ∀ (fuel n : ℕ) (ds : List Char), n < fuel →
      (Nat.toDigitsCore 10 fuel n ds).foldl (fun acc c => 10 * acc + (c.toNat - 48)) 0 =
        ds.foldl (fun acc c => 10 * acc + (c.toNat - 48)) n
  | 0, _, _, h => absurd h (Nat.not_lt_zero _)
  | fuel + 1, n, ds, h => by
    unfold Nat.toDigitsCore
    by_cases h0 : n / 10 = 0
    · simp only [h0, if_true, List.foldl_cons, Nat.mul_zero, Nat.zero_add]
      rw [digitChar_value _ (Nat.mod_lt _ (by decide))]
      have : n % 10 = n := Nat.mod_eq_of_lt (by omega)
      rw [this]
    · simp only [h0, if_false]
      rw [decode_toDigitsCore fuel (n / 10) _ (by omega)]
      simp only [List.foldl_cons]
      rw [digitChar_value _ (Nat.mod_lt _ (by decide)), Nat.div_add_mod]

theorem decodeDigits_toDigits (n : ℕ) : decodeDigits (Nat.toDigits 10 n) = n := by
  unfold decodeDigits Nat.toDigits
  rw [decode_toDigitsCore (n + 1) n [] (Nat.lt_succ_self n)]
  rfl

theorem decodeDigits_zeros (m : ℕ) (l : List Char) :
    decodeDigits (List.replicate m '0' ++ l) = decodeDigits l := by
  unfold decodeDigits
  rw [List.foldl_append]
  congr 1
  induction m with
  | zero => rfl
  | succ m ih => rw [List.replicate_succ, List.foldl_cons]; exact ih

/-- The number of the id written for index `i` is `i + 1`. -/
theorem idNumber_spotId (i : ℕ) :
    idNumber ("P" ++ padStart (toString (i + 1)) 3 '0') = i + 1 := by
  have hdata : ("P" ++ padStart (toString (i + 1)) 3 '0').data =
      'P' :: (List.replicate (3 - (toString (i + 1)).length) '0' ++
        Nat.toDigits 10 (i + 1)) := by
    simp only [padStart, String.data_append]
    rfl
  unfold idNumber
  rw [hdata, List.drop_succ_cons, List.drop_zero, decodeDigits_zeros, decodeDigits_toDigits]

theorem spotId_injective :
    Function.Injective fun i : ℕ => "P" ++ padStart (toString (i + 1)) 3 '0' := by
  intro i j hij
  have h := congrArg idNumber hij
  simp only [idNumber_spotId] at h
  omega

/-! ## Claims on ids -/

/-- C29: of the candidates, `n` survive the filters; the returned spots are
`n`, their ids are pairwise distinct and are exactly the strings "P" + j
zero-padded to 3 digits for 1 ≤ j ≤ n, and the id with number `j + 1` is
carried by the spot built from the surviving candidate at 0-based position `j`
of the input order, whatever its rank. -/
theorem validateAndFilter_ids_distinct (eng : Engine) (rnd : Draws) (k : ℕ)
    (cs : List ClassifiedSpot) :
    (validateAndFilter eng rnd k cs).1.length =
        (cs.filter fun c => c.classification.isParkingSpot && geometricGate eng c).length ∧
      ((validateAndFilter eng rnd k cs).1.map fun s => s.id).Nodup ∧
      (∀ id : String, id ∈ ((validateAndFilter eng rnd k cs).1.map fun s => s.id) ↔
        ∃ j : ℕ, 1 ≤ j ∧
          j ≤ (cs.filter fun c =>
            c.classification.isParkingSpot && geometricGate eng c).length ∧
          id = "P" ++ padStart (toString j) 3 '0') ∧
      (∀ (j : ℕ)
        (hj : j < (cs.filter fun c =>
          c.classification.isParkingSpot && geometricGate eng c).length),
        ∃ s ∈ (validateAndFilter eng rnd k cs).1,
          s.id = "P" ++ padStart (toString (j + 1)) 3 '0' ∧
          spotPayload s =
            spotPayload (emitSpot (fun _ => 0) 0
              ((cs.filter fun c =>
                c.classification.isParkingSpot && geometricGate eng c).get ⟨j, hj⟩) 0).1) := by
  have hperm : (validateAndFilter eng rnd k cs).1.Perm (arrayMap emitSpot rnd k 0
      (cs.filter fun c => c.classification.isParkingSpot && geometricGate eng c)).1 := by
    rw [validateAndFilter_eq_sort]
    exact arraySort_perm _ _
  have hlen := arrayMap_length emitSpot rnd
    (cs.filter fun c => c.classification.isParkingSpot && geometricGate eng c) k 0
  have hids := arrayMap_emitSpot_ids rnd
    (cs.filter fun c => c.classification.isParkingSpot && geometricGate eng c) k 0
  simp only [Nat.zero_add] at hids
  have hpay := arrayMap_map_eq emitSpot rnd spotPayload _
    (fun k a index => spotPayload_emitSpot rnd k a index)
    (cs.filter fun c => c.classification.isParkingSpot && geometricGate eng c) k 0
  refine ⟨?_, ?_, ?_, ?_⟩
  · rw [hperm.length_eq, hlen]
  · rw [(hperm.map _).nodup_iff, hids]
    exact (List.nodup_range _).map spotId_injective
  · intro id
    rw [(hperm.map _).mem_iff, hids, List.mem_map]
    constructor
    · rintro ⟨i, hi, rfl⟩
      exact ⟨i + 1, by omega, by have := List.mem_range.mp hi; omega, rfl⟩
    · rintro ⟨j, hj1, hjn, rfl⟩
      refine ⟨j - 1, List.mem_range.mpr (by omega), ?_⟩
      show "P" ++ padStart (toString (j - 1 + 1)) 3 '0' = _
      rw [Nat.sub_add_cancel hj1]
  · intro j hj
    have hj' : j < (arrayMap emitSpot rnd k 0
        (cs.filter fun c => c.classification.isParkingSpot && geometricGate eng c)).1.length := by
      rw [hlen]; exact hj
    refine ⟨(arrayMap emitSpot rnd k 0
      (cs.filter fun c => c.classification.isParkingSpot && geometricGate eng c)).1.get ⟨j, hj'⟩,
      hperm.mem_iff.mpr (List.get_mem _ _ _), ?_, ?_⟩
    · have h := congrArg (fun l => l[j]?) hids
      simp only [List.getElem?_map, List.getElem?_eq_getElem hj', Option.map_some',
        List.getElem?_eq_getElem (show j < (List.range _).length by
          rw [List.length_range]; exact hj), List.getElem_range, Option.some.injEq] at h
      exact h
    · have h := congrArg (fun l => l[j]?) hpay
      simp only [List.getElem?_map, List.getElem?_eq_getElem hj', Option.map_some',
        List.getElem?_eq_getElem hj, Option.some.injEq] at h
      exact h

/-- In exact arithmetic, for a region with width > 0 and height > 0, the value
of the compactness formula lies in (0, Math.PI] and equals Math.PI exactly
when width = height, and the geometric score is at most 0.8 + 0.2 * Math.PI
and exceeds 1 for a 50 x 50 region. The doubles that the program computes
differ from these values by rounding. -/
theorem compactness_exact_bounds (region : Region) (hw : 0 < region.width)
    (hh : 0 < region.height) :
    0 < (extractGeometricFeatures region).compactness ∧
      (extractGeometricFeatures region).compactness ≤ mathPI ∧
      ((extractGeometricFeatures region).compactness = mathPI ↔
        region.width = region.height) ∧
      scoreGeometricFeatures (extractGeometricFeatures region) ≤ 0.8 + 0.2 * mathPI ∧
      ∃ square : Region, square.width = 50 ∧ square.height = 50 ∧
        1 < scoreGeometricFeatures (extractGeometricFeatures square) := by
  have hpi : 0 < mathPI := by norm_num [mathPI]
  have hsum : 0 < region.width + region.height := by linarith
  have hsq : 0 < (region.width + region.height) ^ 2 := by positivity
  have hc : (extractGeometricFeatures region).compactness =
      (4 * mathPI * (region.width * region.height)) / (region.width + region.height) ^ 2 := rfl
  have hpos : 0 < (extractGeometricFeatures region).compactness := by
    rw [hc]
    have : 0 < region.width * region.height := mul_pos hw hh
    positivity
  have hle : (extractGeometricFeatures region).compactness ≤ mathPI := by
    rw [hc, div_le_iff₀ hsq]
    nlinarith [sq_nonneg (region.width - region.height)]
  have heq : (extractGeometricFeatures region).compactness = mathPI ↔
      region.width = region.height := by
    rw [hc, div_eq_iff (ne_of_gt hsq)]
    constructor
    · intro h
      have h2 : mathPI * (region.width - region.height) ^ 2 = 0 := by linear_combination -h
      rcases mul_eq_zero.mp h2 with h3 | h3
      · exact absurd h3 (ne_of_gt hpi)
      · have := pow_eq_zero_iff (two_ne_zero) |>.mp h3
        linarith
    · intro h
      rw [h]
      ring
  have hrect : (extractGeometricFeatures region).rectangularity = 1 := by
    show region.width * region.height / (region.width * region.height) = 1
    exact div_self (ne_of_gt (mul_pos hw hh))
  refine ⟨hpos, hle, heq, ?_, ?_⟩
  · unfold scoreGeometricFeatures
    rw [hrect]
    split_ifs <;> linarith
  · refine ⟨{ sampleSquare with width := 50, height := 50 }, rfl, rfl, ?_⟩
    norm_num [scoreGeometricFeatures, extractGeometricFeatures, sampleSquare, mathPI]

/-! ## Lemmas on double rounding -/

theorem roundHalfEven_error (v : ℚ) : |(roundHalfEven v : ℚ) - v| ≤ 1 / 2 := by
  have h1 : (⌊v⌋ : ℚ) ≤ v := Int.floor_le v
  have h2 : v < ⌊v⌋ + 1 := Int.lt_floor_add_one v
  unfold roundHalfEven
  simp only
  rw [abs_le]
  split_ifs with ha hb hc
  · constructor <;> linarith
  · push_cast
    constructor <;> linarith
  · constructor <;> linarith
  · push_cast
    constructor <;> linarith

theorem log_two_eq (v : ℚ) (e : ℤ) (hlo : (2 : ℚ) ^ e ≤ v) (hhi : v < (2 : ℚ) ^ (e + 1)) :
    Int.log 2 v = e := by
  have hv : 0 < v := lt_of_lt_of_le (by positivity) hlo
  have h1 : e ≤ Int.log 2 v := by
    rw [← Int.zpow_le_iff_le_log (by norm_num) hv]
    exact_mod_cast hlo
  have h2 : Int.log 2 v < e + 1 := by
    rw [← Int.lt_zpow_iff_log_lt (by norm_num) hv]
    exact_mod_cast hhi
  omega

theorem toDouble_eq_of_bounds (v : ℚ) (e n : ℤ) (hlo : (2 : ℚ) ^ e ≤ v)
    (hhi : v < (2 : ℚ) ^ (e + 1)) (hn : roundHalfEven (v / 2 ^ (e - 52)) = n) :
    toDouble v = n * 2 ^ (e - 52) := by
  have hv : 0 < v := lt_of_lt_of_le (by positivity) hlo
  unfold toDouble
  rw [if_neg (ne_of_gt hv), abs_of_pos hv, log_two_eq v e hlo hhi, hn]

theorem toDouble_error (v : ℚ) : |toDouble v - v| ≤ |v| / 2 ^ 53 := by
  by_cases h0 : v = 0
  · simp [toDouble, h0]
  · have habs : 0 < |v| := abs_pos.mpr h0
    have hq : (0 : ℚ) < 2 ^ (Int.log 2 |v| - 52) := by positivity
    have hlog : (2 : ℚ) ^ Int.log 2 |v| ≤ |v| := by
      have := Int.zpow_log_le_self (b := 2) (by norm_num) habs
      exact_mod_cast this
    have herr := roundHalfEven_error (v / 2 ^ (Int.log 2 |v| - 52))
    have hsplit : toDouble v - v =
        ((roundHalfEven (v / 2 ^ (Int.log 2 |v| - 52)) : ℚ) - v / 2 ^ (Int.log 2 |v| - 52)) *
          2 ^ (Int.log 2 |v| - 52) := by
      unfold toDouble
      rw [if_neg h0]
      field_simp
    rw [hsplit, abs_mul, abs_of_pos hq]
    have hq2 : (2 : ℚ) ^ (Int.log 2 |v| - 52) = 2 ^ Int.log 2 |v| / 2 ^ 52 := by
      rw [zpow_sub₀ (by norm_num)]
      norm_num
    calc |(roundHalfEven (v / 2 ^ (Int.log 2 |v| - 52)) : ℚ) - v / 2 ^ (Int.log 2 |v| - 52)| *
          2 ^ (Int.log 2 |v| - 52)
        ≤ 1 / 2 * 2 ^ (Int.log 2 |v| - 52) := by
          exact mul_le_mul_of_nonneg_right herr (le_of_lt hq)
      _ = 2 ^ Int.log 2 |v| / 2 ^ 53 := by rw [hq2]; ring
      _ ≤ |v| / 2 ^ 53 := by
          exact div_le_div_of_nonneg_right hlog (by positivity)

theorem toDouble_bounds (v : ℚ) (hv : 0 < v) :
    v * (1 - 1 / 2 ^ 53) ≤ toDouble v ∧ toDouble v ≤ v * (1 + 1 / 2 ^ 53) := by
  have h := toDouble_error v
  rw [abs_of_pos hv, abs_le] at h
  constructor <;> linarith [h.1, h.2]

theorem toDouble_pos (v : ℚ) (hv : 0 < v) : 0 < toDouble v := by
  have h := (toDouble_bounds v hv).1
  have : 0 < v * (1 - 1 / 2 ^ 53) := by
    apply mul_pos hv
    norm_num
  linarith

theorem toDouble_zero : toDouble 0 = 0 := by
  simp [toDouble]

theorem toDouble_nonneg_bounds (v : ℚ) (hv : 0 ≤ v) :
    0 ≤ toDouble v ∧ toDouble v ≤ v * (1 + 1 / 2 ^ 53) := by
  rcases eq_or_lt_of_le hv with h | h
  · rw [← h, toDouble_zero]
    norm_num
  · exact ⟨le_of_lt (toDouble_pos v h), (toDouble_bounds v h).2⟩

/-- A rounded sum of two bounded non-negative terms. -/
theorem toDouble_add_le (x y X Y : ℚ) (hx : 0 ≤ x) (hy : 0 ≤ y) (hxX : x ≤ X) (hyY : y ≤ Y) :
    0 ≤ toDouble (x + y) ∧ toDouble (x + y) ≤ (X + Y) * (1 + 1 / 2 ^ 53) := by
  obtain ⟨h0, h1⟩ := toDouble_nonneg_bounds (x + y) (by linarith)
  refine ⟨h0, h1.trans ?_⟩
  exact mul_le_mul_of_nonneg_right (by linarith) (by norm_num)

/-- A rounded product of two bounded non-negative factors. -/
theorem toDouble_mul_le (x y X Y : ℚ) (hx : 0 ≤ x) (hy : 0 ≤ y) (hxX : x ≤ X) (hyY : y ≤ Y) :
    0 ≤ toDouble (x * y) ∧ toDouble (x * y) ≤ X * Y * (1 + 1 / 2 ^ 53) := by
  obtain ⟨h0, h1⟩ := toDouble_nonneg_bounds (x * y) (mul_nonneg hx hy)
  refine ⟨h0, h1.trans ?_⟩
  exact mul_le_mul_of_nonneg_right (mul_le_mul hxX hyY hy (hx.trans hxX)) (by norm_num)

/-- The compactness of line 273 in double arithmetic: positive, at most
`Math.PI * (1 + 2 ^ (-50))`, and at least `Math.PI * (1 - 2 ^ (-50))` for a
square. -/
theorem compactnessDouble_bounds (w h : ℚ) (hw : 0 < w) (hh : 0 < h) :
    0 < toDouble (toDouble (toDouble (4 * mathPI) * toDouble (w * h)) /
        toDouble (toDouble (w + h) ^ 2)) ∧
      toDouble (toDouble (toDouble (4 * mathPI) * toDouble (w * h)) /
        toDouble (toDouble (w + h) ^ 2)) ≤ mathPI * (1 + 1 / 2 ^ 50) ∧
      (w = h →
        mathPI * (1 - 1 / 2 ^ 50) ≤
          toDouble (toDouble (toDouble (4 * mathPI) * toDouble (w * h)) /
            toDouble (toDouble (w + h) ^ 2))) := by
  have hpi : 0 < mathPI := by norm_num [mathPI]
  have hUL1 : (1 + 1 / 2 ^ 53 : ℚ) ^ 4 ≤ (1 + 1 / 2 ^ 50) * (1 - 1 / 2 ^ 53) ^ 3 := by norm_num
  have hUL2 : (1 - 1 / 2 ^ 50 : ℚ) * (1 + 1 / 2 ^ 53) ^ 3 ≤ (1 - 1 / 2 ^ 53) ^ 4 := by norm_num
  have hUpos : (0 : ℚ) < 1 + 1 / 2 ^ 53 := by norm_num
  have hLpos : (0 : ℚ) < 1 - 1 / 2 ^ 53 := by norm_num
  obtain ⟨ha1, ha2⟩ := toDouble_bounds (w * h) (mul_pos hw hh)
  have hapos := toDouble_pos (w * h) (mul_pos hw hh)
  obtain ⟨hs1, hs2⟩ := toDouble_bounds (w + h) (by linarith)
  have hspos := toDouble_pos (w + h) (by linarith)
  obtain ⟨hp1, hp2⟩ := toDouble_bounds (toDouble (w + h) ^ 2) (by positivity)
  have hppos := toDouble_pos (toDouble (w + h) ^ 2) (by positivity)
  obtain ⟨hf1, hf2⟩ := toDouble_bounds (4 * mathPI) (by positivity)
  have hfpos := toDouble_pos (4 * mathPI) (by positivity)
  obtain ⟨hn1, hn2⟩ := toDouble_bounds (toDouble (4 * mathPI) * toDouble (w * h))
    (mul_pos hfpos hapos)
  have hnpos := toDouble_pos (toDouble (4 * mathPI) * toDouble (w * h)) (mul_pos hfpos hapos)
  obtain ⟨hc1, hc2⟩ := toDouble_bounds
    (toDouble (toDouble (4 * mathPI) * toDouble (w * h)) / toDouble (toDouble (w + h) ^ 2))
    (div_pos hnpos hppos)
  have hcpos := toDouble_pos
    (toDouble (toDouble (4 * mathPI) * toDouble (w * h)) / toDouble (toDouble (w + h) ^ 2))
    (div_pos hnpos hppos)
  generalize toDouble (toDouble (toDouble (4 * mathPI) * toDouble (w * h)) /
    toDouble (toDouble (w + h) ^ 2)) = c at hc1 hc2 hcpos ⊢
  generalize toDouble (toDouble (4 * mathPI) * toDouble (w * h)) = n at hn1 hn2 hnpos hc1 hc2
  generalize toDouble (toDouble (w + h) ^ 2) = p at hp1 hp2 hppos hc1 hc2
  generalize toDouble (4 * mathPI) = f at hf1 hf2 hfpos hn1 hn2
  generalize toDouble (w * h) = a at ha1 ha2 hapos hn1 hn2
  generalize toDouble (w + h) = s at hs1 hs2 hspos hp1 hp2
  generalize (1 + 1 / 2 ^ 53 : ℚ) = U at *
  generalize (1 - 1 / 2 ^ 53 : ℚ) = L at *
  have hwh : 0 < w * h := mul_pos hw hh
  have hsum : 0 < w + h := by linarith
  refine ⟨hcpos, ?_, ?_⟩
  · -- upper bound
    have hnN : n ≤ 4 * mathPI * (w * h) * U ^ 3 := by
      have h1 : f * a ≤ (4 * mathPI * U) * (w * h * U) :=
        mul_le_mul hf2 ha2 (le_of_lt hapos) (by positivity)
      have h2 : f * a * U ≤ (4 * mathPI * U) * (w * h * U) * U :=
        mul_le_mul_of_nonneg_right h1 (le_of_lt hUpos)
      calc n ≤ f * a * U := hn2
        _ ≤ (4 * mathPI * U) * (w * h * U) * U := h2
        _ = 4 * mathPI * (w * h) * U ^ 3 := by ring
    have hpP : (w + h) ^ 2 * L ^ 3 ≤ p := by
      have h1 : ((w + h) * L) ^ 2 ≤ s ^ 2 :=
        pow_le_pow_left₀ (by positivity) hs1 2
      have h2 : ((w + h) * L) ^ 2 * L ≤ s ^ 2 * L :=
        mul_le_mul_of_nonneg_right h1 (le_of_lt hLpos)
      calc (w + h) ^ 2 * L ^ 3 = ((w + h) * L) ^ 2 * L := by ring
        _ ≤ s ^ 2 * L := h2
        _ ≤ p := hp1
    have hPpos : 0 < (w + h) ^ 2 * L ^ 3 := by positivity
    have hquot : n / p ≤ mathPI * U ^ 3 / L ^ 3 := by
      have h1 : n / p ≤ (4 * mathPI * (w * h) * U ^ 3) / ((w + h) ^ 2 * L ^ 3) :=
        div_le_div₀ (by positivity) hnN hPpos hpP
      refine h1.trans ?_
      rw [div_le_div_iff₀ hPpos (by positivity)]
      have h4 : 4 * (w * h) ≤ (w + h) ^ 2 := by nlinarith [sq_nonneg (w - h)]
      have hk : 0 ≤ mathPI * U ^ 3 * L ^ 3 := by positivity
      nlinarith [mul_le_mul_of_nonneg_left h4 hk]
    have hL3 : 0 < L ^ 3 := by positivity
    calc c ≤ n / p * U := hc2
      _ ≤ mathPI * U ^ 3 / L ^ 3 * U := mul_le_mul_of_nonneg_right hquot (le_of_lt hUpos)
      _ = mathPI * (U ^ 4 / L ^ 3) := by ring
      _ ≤ mathPI * (1 + 1 / 2 ^ 50) := by
          apply mul_le_mul_of_nonneg_left _ (le_of_lt hpi)
          rw [div_le_iff₀ hL3]
          exact hUL1
  · -- lower bound for a square
    intro hEq
    subst hEq
    have hnN : 4 * mathPI * (w * w) * L ^ 3 ≤ n := by
      have h1 : (4 * mathPI * L) * (w * w * L) ≤ f * a :=
        mul_le_mul hf1 ha1 (by positivity) (le_of_lt hfpos)
      have h2 : (4 * mathPI * L) * (w * w * L) * L ≤ f * a * L :=
        mul_le_mul_of_nonneg_right h1 (le_of_lt hLpos)
      calc 4 * mathPI * (w * w) * L ^ 3 = (4 * mathPI * L) * (w * w * L) * L := by ring
        _ ≤ f * a * L := h2
        _ ≤ n := hn1
    have hpP : p ≤ 4 * (w * w) * U ^ 3 := by
      have h1 : s ^ 2 ≤ ((w + w) * U) ^ 2 :=
        pow_le_pow_left₀ (le_of_lt hspos) hs2 2
      have h2 : s ^ 2 * U ≤ ((w + w) * U) ^ 2 * U :=
        mul_le_mul_of_nonneg_right h1 (le_of_lt hUpos)
      calc p ≤ s ^ 2 * U := hp2
        _ ≤ ((w + w) * U) ^ 2 * U := h2
        _ = 4 * (w * w) * U ^ 3 := by ring
    have hquot : mathPI * L ^ 3 / U ^ 3 ≤ n / p := by
      have h1 : (4 * mathPI * (w * w) * L ^ 3) / (4 * (w * w) * U ^ 3) ≤ n / p :=
        div_le_div₀ (le_of_lt hnpos) hnN hppos hpP
      refine le_trans (le_of_eq ?_) h1
      field_simp
      ring
    have hU3 : 0 < U ^ 3 := by positivity
    calc mathPI * (1 - 1 / 2 ^ 50) ≤ mathPI * (L ^ 4 / U ^ 3) := by
          apply mul_le_mul_of_nonneg_left _ (le_of_lt hpi)
          rw [le_div_iff₀ hU3]
          exact hUL2
      _ = mathPI * L ^ 3 / U ^ 3 * L := by ring
      _ ≤ n / p * L := mul_le_mul_of_nonneg_right hquot (le_of_lt hLpos)
      _ ≤ c := hc1

/-- The geometric score in double arithmetic, for features whose
rectangularity is at most 1 and whose compactness is at most
`Math.PI * (1 + 2 ^ (-50))`. -/
theorem scoreGeometricFeaturesDouble_le (geo : GeometricFeatures)
    (hr0 : 0 ≤ geo.rectangularity) (hr1 : geo.rectangularity ≤ 1)
    (hc0 : 0 ≤ geo.compactness) (hc1 : geo.compactness ≤ mathPI * (1 + 1 / 2 ^ 50)) :
    scoreGeometricFeaturesDouble geo ≤ (0.8 + 0.2 * mathPI) * (1 + 1 / 2 ^ 49) := by
  have h3 := toDouble_nonneg_bounds 0.3 (by norm_num)
  have h2 := toDouble_nonneg_bounds 0.2 (by norm_num)
  have hs1 : 0 ≤ (if geo.aspectRatio ≥ toDouble 0.7 ∧ geo.aspectRatio ≤ toDouble 1.4 then
        toDouble (0 + toDouble 0.3) else 0) ∧
      (if geo.aspectRatio ≥ toDouble 0.7 ∧ geo.aspectRatio ≤ toDouble 1.4 then
        toDouble (0 + toDouble 0.3) else 0) ≤
        (0 + 0.3 * (1 + 1 / 2 ^ 53)) * (1 + 1 / 2 ^ 53) := by
    split_ifs
    · exact toDouble_add_le 0 _ 0 _ le_rfl h3.1 le_rfl h3.2
    · constructor <;> norm_num
  show toDouble
      (toDouble
          ((if geo.area ≥ 1000 ∧ geo.area ≤ 4000 then
              toDouble
                ((if geo.aspectRatio ≥ toDouble 0.7 ∧ geo.aspectRatio ≤ toDouble 1.4 then
                    toDouble (0 + toDouble 0.3) else 0) + toDouble 0.3)
            else
              (if geo.aspectRatio ≥ toDouble 0.7 ∧ geo.aspectRatio ≤ toDouble 1.4 then
                toDouble (0 + toDouble 0.3) else 0)) +
            toDouble (geo.rectangularity * toDouble 0.2)) +
        toDouble (geo.compactness * toDouble 0.2)) ≤ _
  generalize (if geo.aspectRatio ≥ toDouble 0.7 ∧ geo.aspectRatio ≤ toDouble 1.4 then
      toDouble (0 + toDouble 0.3) else 0) = s1 at hs1 ⊢
  have hs2 : 0 ≤ (if geo.area ≥ 1000 ∧ geo.area ≤ 4000 then toDouble (s1 + toDouble 0.3)
        else s1) ∧
      (if geo.area ≥ 1000 ∧ geo.area ≤ 4000 then toDouble (s1 + toDouble 0.3) else s1) ≤
        ((0 + 0.3 * (1 + 1 / 2 ^ 53)) * (1 + 1 / 2 ^ 53) + 0.3 * (1 + 1 / 2 ^ 53)) *
          (1 + 1 / 2 ^ 53) := by
    split_ifs
    · exact toDouble_add_le s1 _ _ _ hs1.1 h3.1 hs1.2 h3.2
    · refine ⟨hs1.1, hs1.2.trans ?_⟩
      norm_num
  generalize (if geo.area ≥ 1000 ∧ geo.area ≤ 4000 then toDouble (s1 + toDouble 0.3)
    else s1) = s2 at hs2 ⊢
  have ht := toDouble_mul_le geo.rectangularity (toDouble 0.2) 1 _ hr0 h2.1 hr1 h2.2
  have hs3 := toDouble_add_le s2 _ _ _ hs2.1 ht.1 hs2.2 ht.2
  have ht2 := toDouble_mul_le geo.compactness (toDouble 0.2) _ _ hc0 h2.1 hc1 h2.2
  have hs4 := toDouble_add_le _ _ _ _ hs3.1 ht2.1 hs3.2 ht2.2
  refine hs4.2.trans ?_
  norm_num [mathPI]

/-- A 50 x 50 region scores 1.4283185307179587 in double arithmetic. -/
theorem scoreGeometricFeaturesDouble_fifty :
    scoreGeometricFeaturesDouble (extractGeometricFeaturesDouble sampleSquareFifty) =
      6432574802707773 / 4503599627370496 := by
  have hA : toDouble ((50 : ℚ) * 50) = 2500 := by
    rw [toDouble_eq_of_bounds _ (11) 5497558138880000 (by norm_num) (by norm_num)
      (by norm_num [roundHalfEven])]
    norm_num
  have hAR : toDouble ((50 : ℚ) / 50) = 1 := by
    rw [toDouble_eq_of_bounds _ (0) 4503599627370496 (by norm_num) (by norm_num)
      (by norm_num [roundHalfEven])]
    norm_num
  have hRECT : toDouble ((2500 : ℚ) / 2500) = 1 := by
    rw [toDouble_eq_of_bounds _ (0) 4503599627370496 (by norm_num) (by norm_num)
      (by norm_num [roundHalfEven])]
    norm_num
  have hS : toDouble ((50 : ℚ) + 50) = 100 := by
    rw [toDouble_eq_of_bounds _ (6) 7036874417766400 (by norm_num) (by norm_num)
      (by norm_num [roundHalfEven])]
    norm_num
  have hPER : toDouble ((2 : ℚ) * 100) = 200 := by
    rw [toDouble_eq_of_bounds _ (7) 7036874417766400 (by norm_num) (by norm_num)
      (by norm_num [roundHalfEven])]
    norm_num
  have hP : toDouble ((100 : ℚ) ^ 2) = 10000 := by
    rw [toDouble_eq_of_bounds _ (13) 5497558138880000 (by norm_num) (by norm_num)
      (by norm_num [roundHalfEven])]
    norm_num
  have hF : toDouble (4 * mathPI) = 884279719003555 / 70368744177664 := by
    rw [toDouble_eq_of_bounds _ (3) 7074237752028440 (by norm_num [mathPI]) (by norm_num [mathPI])
      (by norm_num [roundHalfEven, mathPI])]
    norm_num
  have hN : toDouble ((884279719003555 / 70368744177664 : ℚ) * 2500) = 2158886032723523 / 68719476736 := by
    rw [toDouble_eq_of_bounds _ (14) 8635544130894092 (by norm_num) (by norm_num)
      (by norm_num [roundHalfEven])]
    norm_num
  have hC : toDouble ((2158886032723523 / 68719476736 : ℚ) / 10000) = 884279719003555 / 281474976710656 := by
    rw [toDouble_eq_of_bounds _ (1) 7074237752028440 (by norm_num) (by norm_num)
      (by norm_num [roundHalfEven])]
    norm_num
  have hD07 : toDouble (0.7) = 3152519739159347 / 4503599627370496 := by
    rw [toDouble_eq_of_bounds _ (-1) 6305039478318694 (by norm_num) (by norm_num)
      (by norm_num [roundHalfEven])]
    norm_num
  have hD14 : toDouble (1.4) = 3152519739159347 / 2251799813685248 := by
    rw [toDouble_eq_of_bounds _ (0) 6305039478318694 (by norm_num) (by norm_num)
      (by norm_num [roundHalfEven])]
    norm_num
  have hD03 : toDouble (0.3) = 5404319552844595 / 18014398509481984 := by
    rw [toDouble_eq_of_bounds _ (-2) 5404319552844595 (by norm_num) (by norm_num)
      (by norm_num [roundHalfEven])]
    norm_num
  have hD02 : toDouble (0.2) = 3602879701896397 / 18014398509481984 := by
    rw [toDouble_eq_of_bounds _ (-3) 7205759403792794 (by norm_num) (by norm_num)
      (by norm_num [roundHalfEven])]
    norm_num
  have hS1 : toDouble ((0 : ℚ) + 5404319552844595 / 18014398509481984) = 5404319552844595 / 18014398509481984 := by
    rw [toDouble_eq_of_bounds _ (-2) 5404319552844595 (by norm_num) (by norm_num)
      (by norm_num [roundHalfEven])]
    norm_num
  have hS2 : toDouble ((5404319552844595 / 18014398509481984 : ℚ) + 5404319552844595 / 18014398509481984) = 5404319552844595 / 9007199254740992 := by
    rw [toDouble_eq_of_bounds _ (-1) 5404319552844595 (by norm_num) (by norm_num)
      (by norm_num [roundHalfEven])]
    norm_num
  have hT : toDouble ((1 : ℚ) * (3602879701896397 / 18014398509481984)) = 3602879701896397 / 18014398509481984 := by
    rw [toDouble_eq_of_bounds _ (-3) 7205759403792794 (by norm_num) (by norm_num)
      (by norm_num [roundHalfEven])]
    norm_num
  have hS3 : toDouble ((5404319552844595 / 9007199254740992 : ℚ) + 3602879701896397 / 18014398509481984) = 3602879701896397 / 4503599627370496 := by
    rw [toDouble_eq_of_bounds _ (-1) 7205759403792794 (by norm_num) (by norm_num)
      (by norm_num [roundHalfEven])]
    norm_num
  have hT2 : toDouble ((884279719003555 / 281474976710656 : ℚ) * (3602879701896397 / 18014398509481984)) = 176855943800711 / 281474976710656 := by
    rw [toDouble_eq_of_bounds _ (-1) 5659390201622752 (by norm_num) (by norm_num)
      (by norm_num [roundHalfEven])]
    norm_num
  have hS4 : toDouble ((3602879701896397 / 4503599627370496 : ℚ) + 176855943800711 / 281474976710656) = 6432574802707773 / 4503599627370496 := by
    rw [toDouble_eq_of_bounds _ (0) 6432574802707773 (by norm_num) (by norm_num)
      (by norm_num [roundHalfEven])]
    norm_num
  have hg : extractGeometricFeaturesDouble sampleSquareFifty =
      { area := 2500, aspectRatio := 1, rectangularity := 1, perimeter := 200,
        compactness := 884279719003555 / 281474976710656 } := by
    simp only [extractGeometricFeaturesDouble, sampleSquareFifty, hA, hAR, hRECT, hS, hPER, hP,
      hF, hN, hC]
  rw [hg]
  simp only [scoreGeometricFeaturesDouble, hD07, hD14, hD03, hD02]
  rw [if_pos (by norm_num), if_pos (by norm_num)]
  simp only [hS1, hS2, hT, hS3, hT2, hS4]

/-- C30 (counterexample): for the square of side 60.01 the compactness
computed in doubles is `Math.PI + 2 ^ (-51)` (3.1415926535897936), above
`Math.PI` although width = height. -/
theorem compactness_double_above_pi :
    sampleSquareDouble.width = sampleSquareDouble.height ∧
      (extractGeometricFeaturesDouble sampleSquareDouble).compactness =
        mathPI + 1 / 2 ^ 51 ∧
      mathPI < (extractGeometricFeaturesDouble sampleSquareDouble).compactness := by
  have harea : toDouble ((8445656676203233 / 140737488355328 : ℚ) *
      (8445656676203233 / 140737488355328)) = 7919122767796187 / 2199023255552 := by
    rw [toDouble_eq_of_bounds _ 11 7919122767796187 (by norm_num) (by norm_num)
      (by norm_num [roundHalfEven])]
    norm_num
  have hsum : toDouble ((8445656676203233 / 140737488355328 : ℚ) +
      8445656676203233 / 140737488355328) = 8445656676203233 / 70368744177664 := by
    rw [toDouble_eq_of_bounds _ 6 8445656676203233 (by norm_num) (by norm_num)
      (by norm_num [roundHalfEven])]
    norm_num
  have hpow : toDouble ((8445656676203233 / 70368744177664 : ℚ) ^ 2) =
      7919122767796187 / 549755813888 := by
    rw [toDouble_eq_of_bounds _ 13 7919122767796187 (by norm_num) (by norm_num)
      (by norm_num [roundHalfEven])]
    norm_num
  have hfour : toDouble (4 * mathPI) = 884279719003555 / 70368744177664 := by
    rw [toDouble_eq_of_bounds _ 3 7074237752028440 (by norm_num [mathPI])
      (by norm_num [mathPI]) (by norm_num [roundHalfEven, mathPI])]
    norm_num
  have hnum : toDouble ((884279719003555 / 70368744177664 : ℚ) *
      (7919122767796187 / 2199023255552)) = 6219664477546043 / 137438953472 := by
    rw [toDouble_eq_of_bounds _ 15 6219664477546043 (by norm_num) (by norm_num)
      (by norm_num [roundHalfEven])]
    norm_num
  have hquot : toDouble ((6219664477546043 / 137438953472 : ℚ) /
      (7919122767796187 / 549755813888)) = 7074237752028441 / 2251799813685248 := by
    rw [toDouble_eq_of_bounds _ 1 7074237752028441 (by norm_num) (by norm_num)
      (by norm_num [roundHalfEven])]
    norm_num
  have hc : (extractGeometricFeaturesDouble sampleSquareDouble).compactness =
      7074237752028441 / 2251799813685248 := by
    simp only [extractGeometricFeaturesDouble, sampleSquareDouble, harea, hsum, hpow, hfour,
      hnum, hquot]
  refine ⟨rfl, ?_, ?_⟩
  · rw [hc]
    norm_num [mathPI]
  · rw [hc]
    norm_num [mathPI]

theorem toDouble_one : toDouble 1 = 1 := by
  rw [toDouble_eq_of_bounds 1 0 4503599627370496 (by norm_num) (by norm_num)
    (by norm_num [roundHalfEven])]
  norm_num

/-- C30 (amended): for every region whose width and height lie between
`2 ^ (-100)` and `2 ^ 100`, the compactness that `extractGeometricFeatures`
computes in doubles is positive and at most `Math.PI * (1 + 2 ^ (-50))`, and
at least `Math.PI * (1 - 2 ^ (-50))` when width = height; the geometric score
of the extracted features is at most `(0.8 + 0.2 * Math.PI) * (1 + 2 ^ (-49))`,
and it exceeds 1 for a 50 x 50 region. The range of width and height keeps
every intermediate result within the normal range of doubles, where `toDouble`
is the IEEE result. -/
theorem compactness_double_bounds (region : Region)
    (hwlo : 1 / 2 ^ 100 ≤ region.width) (hwhi : region.width ≤ 2 ^ 100)
    (hhlo : 1 / 2 ^ 100 ≤ region.height) (hhhi : region.height ≤ 2 ^ 100) :
    0 < (extractGeometricFeaturesDouble region).compactness ∧
      (extractGeometricFeaturesDouble region).compactness ≤ mathPI * (1 + 1 / 2 ^ 50) ∧
      (region.width = region.height →
        mathPI * (1 - 1 / 2 ^ 50) ≤ (extractGeometricFeaturesDouble region).compactness) ∧
      scoreGeometricFeaturesDouble (extractGeometricFeaturesDouble region) ≤
        (0.8 + 0.2 * mathPI) * (1 + 1 / 2 ^ 49) ∧
      ∃ square : Region, square.width = 50 ∧ square.height = 50 ∧
        1 < scoreGeometricFeaturesDouble (extractGeometricFeaturesDouble square) := by
  have hw : 0 < region.width := lt_of_lt_of_le (by norm_num) hwlo
  have hh : 0 < region.height := lt_of_lt_of_le (by norm_num) hhlo
  obtain ⟨hpos, hle, hge⟩ := compactnessDouble_bounds region.width region.height hw hh
  have hrect : (extractGeometricFeaturesDouble region).rectangularity = 1 := by
    show toDouble (toDouble (region.width * region.height) /
      toDouble (region.width * region.height)) = 1
    rw [div_self (ne_of_gt (toDouble_pos _ (mul_pos hw hh))), toDouble_one]
  refine ⟨hpos, hle, hge, ?_, ?_⟩
  · exact scoreGeometricFeaturesDouble_le _ (by rw [hrect]; norm_num) (le_of_eq hrect)
      (le_of_lt hpos) hle
  · refine ⟨sampleSquareFifty, rfl, rfl, ?_⟩
    rw [scoreGeometricFeaturesDouble_fifty]
    norm_num

/-- C30 (witness): the square of side 60.01. -/
theorem compactness_double_bounds_witness :
    1 / 2 ^ 100 ≤ sampleSquareDouble.width ∧ sampleSquareDouble.width ≤ 2 ^ 100 ∧
      1 / 2 ^ 100 ≤ sampleSquareDouble.height ∧ sampleSquareDouble.height ≤ 2 ^ 100 ∧
      0 < (extractGeometricFeaturesDouble sampleSquareDouble).compactness ∧
      (extractGeometricFeaturesDouble sampleSquareDouble).compactness ≤
        mathPI * (1 + 1 / 2 ^ 50) ∧
      scoreGeometricFeaturesDouble (extractGeometricFeaturesDouble sampleSquareDouble) ≤
        (0.8 + 0.2 * mathPI) * (1 + 1 / 2 ^ 49) :=
  ⟨by norm_num [sampleSquareDouble], by norm_num [sampleSquareDouble],
    by norm_num [sampleSquareDouble], by norm_num [sampleSquareDouble],
    (compactness_double_bounds sampleSquareDouble (by norm_num [sampleSquareDouble])
      (by norm_num [sampleSquareDouble]) (by norm_num [sampleSquareDouble])
      (by norm_num [sampleSquareDouble])).1,
    (compactness_double_bounds sampleSquareDouble (by norm_num [sampleSquareDouble])
      (by norm_num [sampleSquareDouble]) (by norm_num [sampleSquareDouble])
      (by norm_num [sampleSquareDouble])).2.1,
    (compactness_double_bounds sampleSquareDouble (by norm_num [sampleSquareDouble])
      (by norm_num [sampleSquareDouble]) (by norm_num [sampleSquareDouble])
      (by norm_num [sampleSquareDouble])).2.2.2.1⟩

end ParkingDetection
